import Mathlib

/-!
Verification development for the kp_gateway_selector rule-set compiler and
selector (gateway_selector_v2).  The Python source is shallowly embedded:
pure functions become Lean functions, dictionaries become association lists,
fallible code returns Except, and the per-request uuid4 draw of the weighted
picker is threaded as an explicit argument.
-/

namespace GatewaySel

/-- Naive model of a Python datetime: days since the Unix epoch, the time of
day in microseconds, and an optional fixed utc offset in minutes standing for
the attached tzinfo (none models a naive datetime).  Daylight-saving shifts of
IANA zones are not modelled; a zone is its standard offset. -/
structure PyDatetime where
  days : Int
  tod : Nat
  tz : Option Int
deriving Repr, DecidableEq

/-- Model of the Python values a context or a JSON document can hold.
Floats are not modelled (the source routes monetary values through Decimal
and the claims never touch floats). -/
inductive Value where
  | vNone
  | int (n : Int)
  | str (s : String)
  | bool (b : Bool)
  | list (items : List Value)
  | dict (fields : List (String × Value))
  | dtime (d : PyDatetime)
deriving Repr

mutual

/-- Structural boolean equality on values (dicts compare as ordered pair
lists; the Python order insensitive dict equality is only reachable through
unhashable operands, which raise before any equality test in the code under
study). -/
def valueBeq : Value → Value → Bool
  | .vNone, .vNone => true
  | .int a, .int b => a = b
  | .str a, .str b => a = b
  | .bool a, .bool b => a = b
  | .list a, .list b => valueListBeq a b
  | .dict a, .dict b => valueFieldsBeq a b
  | .dtime a, .dtime b => a = b
  | _, _ => false

/-- Pointwise equality of value lists. -/
def valueListBeq : List Value → List Value → Bool
  | [], [] => true
  | a :: as0, b :: bs0 => valueBeq a b && valueListBeq as0 bs0
  | _, _ => false

/-- Pointwise equality of dict entry lists. -/
def valueFieldsBeq : List (String × Value) → List (String × Value) → Bool
  | [], [] => true
  | (ka, va) :: as0, (kb, vb) :: bs0 => ka = kb && valueBeq va vb && valueFieldsBeq as0 bs0
  | _, _ => false

end

/-- Context consumed by matchers and the selector: a Python dict from string
keys to values, modelled as an association list with the first binding of a
key authoritative. -/
abbrev Ctx := List (String × Value)

/-- Dict lookup, the Python d.get(k): first binding wins, default None. -/
def dictGet (d : List (String × Value)) (k : String) : Value :=
  match d with
  | [] => .vNone
  | (k0, v) :: rest => if k0 = k then v else dictGet rest k

/-- Membership test of a key in a Python dict (the k in d test). -/
def dictHas (d : List (String × Value)) (k : String) : Bool :=
  match d with
  | [] => false
  | (k0, _) :: rest => k0 = k || dictHas rest k

mutual

/-- Model of Python repr applied to a value, used for elements of containers.
String escaping inside repr is not modelled (no claim depends on the textual
form of composite or datetime values). -/
def pyRepr : Value → String
  | .vNone => "None"
  | .int n => toString n
  | .str s => "\x27" ++ s ++ "\x27"
  | .bool b => if b then "True" else "False"
  | .list items => "[" ++ pyReprList items ++ "]"
  | .dict fields => "\x7b" ++ pyReprFields fields ++ "\x7d"
  | .dtime d => "datetime(" ++ toString d.days ++ "," ++ toString d.tod ++ ")"

/-- Comma separated reprs of list items. -/
def pyReprList : List Value → String
  | [] => ""
  | [v] => pyRepr v
  | v :: rest => pyRepr v ++ ", " ++ pyReprList rest

/-- Comma separated reprs of dict entries. -/
def pyReprFields : List (String × Value) → String
  | [] => ""
  | [(k, v)] => "\x27" ++ k ++ "\x27: " ++ pyRepr v
  | (k, v) :: rest => "\x27" ++ k ++ "\x27: " ++ pyRepr v ++ ", " ++ pyReprFields rest

end

/-- Model of Python str applied to a value.  On scalars this is exact: ints
print in base 10 with a leading minus for negatives, booleans print as True
and False, None prints as None; containers delegate to repr. -/
def pyStr : Value → String
  | .str s => s
  | v => pyRepr v

/-- Ascii lowercase of a string (the Python str.lower for the ascii range). -/
def pyLower (s : String) : String := ⟨s.data.map Char.toLower⟩

/-- Ascii uppercase of a string (the Python str.upper for the ascii range). -/
def pyUpper (s : String) : String := ⟨s.data.map Char.toUpper⟩

/-- Whitespace predicate of the Python str.strip. -/
def isSpaceChar (c : Char) : Bool :=
  c = ' ' || c = '\t' || c = '\n' || c = '\r'

/-- Embedding of str.strip: drop whitespace from both ends. -/
def pyStrip (s : String) : String :=
  ⟨((s.data.dropWhile isSpaceChar).reverse.dropWhile isSpaceChar).reverse⟩

/-- Split accumulator walking the characters. -/
def splitCharAux (sep : Char) : List Char → List Char → List String
  | [], acc => [String.mk acc.reverse]
  | c :: cs, acc =>
    if c = sep then String.mk acc.reverse :: splitCharAux sep cs []
    else splitCharAux sep cs (c :: acc)

/-- Split of a string on a separator character, the Python str.split with a
one character separator: empty segments are kept, the empty string gives one
empty segment. -/
def splitOnChar (sep : Char) (s : String) : List String :=
  splitCharAux sep s.data []

/-- Character by character integer parse helper: digits only. -/
def digitsToNat : List Char → Option Nat
  | [] => none
  | cs => cs.foldl (fun acc c =>
      match acc with
      | none => none
      | some n => if c.isDigit then some (n * 10 + (c.toNat - 48)) else none)
      (some 0)

/-- Model of Python int applied to a string: optional surrounding blanks,
optional sign, then decimal digits.  Underscore digit grouping is not
modelled.  Returns none where Python raises ValueError. -/
def pyStrToInt (s : String) : Option Int :=
  let cs := (pyStrip s).data
  match cs with
  | '-' :: rest => (digitsToNat rest).map (fun n => -(n : Int))
  | '+' :: rest => (digitsToNat rest).map (fun n => (n : Int))
  | rest => (digitsToNat rest).map (fun n => (n : Int))

/-- Model of the Python int builtin on a value.  Returns none where Python
raises (TypeError on None and containers, ValueError on bad strings). -/
def pyToInt : Value → Option Int
  | .int n => some n
  | .bool b => some (if b then 1 else 0)
  | .str s => pyStrToInt s
  | _ => none

/-- Numeric view used by the Python equality between ints and booleans
(True equals 1 and False equals 0). -/
def pyNumView : Value → Option Int
  | .int n => some n
  | .bool b => some (if b then 1 else 0)
  | _ => none

/-- Model of Python equality as used by set membership: ints and booleans
compare numerically across the two types, everything else structurally. -/
def pyEq (a b : Value) : Bool :=
  match pyNumView a, pyNumView b with
  | some x, some y => x = y
  | _, _ => valueBeq a b

/-- Hashability of a value under Python hash: lists and dicts raise
TypeError when hashed, every other modelled value is hashable. -/
def pyHashable : Value → Bool
  | .list _ => false
  | .dict _ => false
  | _ => true

/-- Embedding of _get_field (gateway_selector_v2/matchers/utils.py): walk the
dotted path through nested dicts; any absent segment or non dict along the way
gives None.  The Python function returns None both for a missing binding and
for a stored None, so the result None is represented by Value.vNone. -/
def getFieldGo : Value → List String → Value
  | cur, [] => cur
  | cur, part :: rest =>
    match cur with
    | .dict d => if dictHas d part then getFieldGo (dictGet d part) rest else .vNone
    | _ => .vNone

/-- Embedding note: the path walk of _get_field starts at the whole context
dict. -/
def _get_field (ctx : Ctx) (path : String) : Value :=
  getFieldGo (.dict ctx) (splitOnChar '.' path)

/-! ## Datetime helpers -/

/-- Microseconds in a day. -/
def usecPerDay : Int := 86400000000

/-- Microseconds in a minute. -/
def usecPerMin : Int := 60000000

/-- Absolute epoch microseconds of an aware datetime whose offset is off
minutes east of utc. -/
def dtToAbs (d : PyDatetime) (off : Int) : Int :=
  d.days * usecPerDay + (d.tod : Int) - off * usecPerMin

/-- Aware datetime in the zone with the given offset, from absolute epoch
microseconds. -/
def dtFromAbs (abs : Int) (off : Int) : PyDatetime :=
  let lcl := abs + off * usecPerMin
  { days := lcl / usecPerDay, tod := (lcl % usecPerDay).toNat, tz := some off }

/-- Model of datetime.astimezone for an aware datetime. -/
def dtAstimezone (d : PyDatetime) (src target : Int) : PyDatetime :=
  dtFromAbs (dtToAbs d src) target

/-- Model of datetime.weekday: Monday is 0, Sunday is 6; epoch day zero,
1970-01-01, was a Thursday. -/
def pyWeekday (d : PyDatetime) : Nat :=
  ((d.days + 3) % 7).toNat

/-- Evaluation environment: the absolute wall clock instant, in epoch
microseconds, that datetime.now would observe.  Threading it explicitly keeps
evaluation a pure function. -/
structure EvalEnv where
  nowAbs : Int
deriving Repr, DecidableEq

/-! ## Matcher model -/

/-- Compiled matcher tree of gateway_selector_v2.  Composite nodes mirror the
dataclasses of rule_compiler.py, leaves mirror the matcher dataclasses built
by the factories.  The regex leaf stores the source configuration; the
compiled pattern object is reconstructed at evaluation (engine_timeout_ms is
dropped: per match timeouts are a wall clock concern outside every claim).
Decimal bounds of the amount leaf are exact rationals, matching the exact
comparison semantics of the 28 digit Decimal context for the magnitudes in
scope. -/
inductive Matcher where
  | constTrue
  | constFalse
  | all (children : List Matcher)
  | anyOf (children : List Matcher)
  | noneOf (child : Matcher)
  | debugWrap (inner : Matcher) (path : String)
  | valueIn (field : String) (values : List Value) (coerce : Option String)
  | regexM (field pattern mode : String) (flagsVal : Nat) (coerce : Option String)
      (maxLen : Option Nat)
  | amountRange (field : String) (coerce : Option String) (scale : Nat)
      (minV maxV : Option ℚ) (minInc maxInc : Bool)
  | timeWindow (tzOff : Int) (startT endT : Nat) (days : Option (List Nat))
deriving Repr

/-- Helper for the anchored checks of the literal regex model. -/
def charsStartWith : List Char → List Char → Bool
  | _, [] => true
  | [], _ :: _ => false
  | c :: cs, p :: ps => c = p && charsStartWith cs ps

/-- Substring occurrence check on character lists. -/
def charsHaveSub (s pat : List Char) : Bool :=
  charsStartWith s pat ||
    match s with
    | [] => false
    | _ :: cs => charsHaveSub cs pat

/-- Model of the compiled pattern of RegexMatcher restricted to literal
patterns: mode match anchors at the start, fullmatch requires the whole
string, search looks for any occurrence.  Metacharacter semantics of the re
engine are not modelled; no claim depends on them. -/
def reAccepts (pattern mode : String) (s : String) : Bool :=
  if mode = "match" then charsStartWith s.toList pattern.toList
  else if mode = "fullmatch" then s = pattern
  else charsHaveSub s.toList pattern.toList

/-- Embedding of ValueIn.__call__ (gateway_selector/matchers/value_in.py):
read the field, treat None as a non match, coerce per configuration, then test
set membership.  A failing int coercion is caught and gives false; membership
of an unhashable value raises TypeError, modelled as an error result. -/
def valueInEval (field : String) (values : List Value) (coerce : Option String)
    (ctx : Ctx) : Except String Bool :=
  match _get_field ctx field with
  | .vNone => .ok false
  | v =>
    if coerce = some "int" then
      match pyToInt v with
      | none => .ok false
      | some n => .ok (values.any (fun w => pyEq (.int n) w))
    else if coerce = some "str" then
      .ok (values.any (fun w => pyEq (.str (pyStr v)) w))
    else if coerce = some "lower-str" then
      .ok (values.any (fun w => pyEq (.str (pyLower (pyStr v))) w))
    else
      if pyHashable v then .ok (values.any (fun w => pyEq v w))
      else .error "TypeError: unhashable type"

/-- Embedding of RegexMatcher.__call__ (gateway_selector_v2/matchers/regex.py):
read the field, None gives false, coerce to a string or reject non strings,
enforce max_len, then run the engine. -/
def regexEval (field pattern mode : String) (coerce : Option String)
    (maxLen : Option Nat) (ctx : Ctx) : Bool :=
  match _get_field ctx field with
  | .vNone => false
  | v =>
    let s? : Option String :=
      if coerce = some "str" then some (pyStr v)
      else if coerce = some "lower-str" then some (pyLower (pyStr v))
      else match v with | .str s => some s | _ => none
    match s? with
    | none => false
    | some s =>
      let tooLong : Bool := match maxLen with | some m => s.length > m | none => false
      if tooLong then false else reAccepts pattern mode s

/-- Embedding of _to_decimal (gateway_selector_v2/matchers/amount_range.py):
Decimal(str(val)) with every parse failure collapsed to none.  Exponent
forms of decimal literals are not modelled. -/
def decimalOfString (s : String) : Option ℚ :=
  let cs := (pyStrip s).data
  let signed : ℚ × List Char :=
    match cs with
    | '-' :: rest => (-1, rest)
    | '+' :: rest => (1, rest)
    | rest => (1, rest)
  let sgn := signed.1
  let body := signed.2
  let ip := body.takeWhile (· ≠ '.')
  match body.dropWhile (· ≠ '.') with
  | [] => (digitsToNat ip).map (fun n => sgn * n)
  | '.' :: fp =>
    if ip.isEmpty && fp.isEmpty then none
    else if ip.all Char.isDigit && fp.all Char.isDigit then
      some (sgn * (((digitsToNat ip).getD 0 : ℚ) +
        ((digitsToNat fp).getD 0 : ℚ) / (10 ^ fp.length)))
    else none
  | _ => none

/-- Model of the Python _to_decimal on a value: stringify then parse. -/
def _to_decimal : Value → Option ℚ
  | .vNone => none
  | .int n => some n
  | v => decimalOfString (pyStr v)

/-- Embedding of AmountRange.__call__
(gateway_selector_v2/matchers/amount_range.py). -/
def amountRangeEval (field : String) (coerce : Option String) (scale : Nat)
    (minV maxV : Option ℚ) (minInc maxInc : Bool) (ctx : Ctx) : Bool :=
  match _get_field ctx field with
  | .vNone => false
  | raw =>
    let amt? : Option ℚ :=
      if coerce = some "int" then
        (pyToInt raw).map (fun iv =>
          if scale > 0 then (iv : ℚ) / (10 ^ scale) else (iv : ℚ))
      else _to_decimal raw
    match amt? with
    | none => false
    | some amt =>
      (match minV with
       | none => true
       | some m => if minInc then decide (m ≤ amt) else decide (m < amt)) &&
      (match maxV with
       | none => true
       | some m => if maxInc then decide (amt ≤ m) else decide (amt < m))

/-- Embedding of TimeWindow.__call__
(gateway_selector_v2/matchers/time_window.py): resolve now from the context
or the wall clock, normalize its zone, filter by weekday, then compare the
time of day against the window, crossing midnight when start exceeds end.
A context value for now that is not a datetime raises AttributeError,
modelled as an error result. -/
def timeWindowEval (env : EvalEnv) (tzOff : Int) (startT endT : Nat)
    (days : Option (List Nat)) (ctx : Ctx) : Except String Bool :=
  let nowE : Except String PyDatetime :=
    match dictGet ctx "now" with
    | .vNone => .ok (dtFromAbs env.nowAbs tzOff)
    | .dtime d =>
      match d.tz with
      | none => .ok { d with tz := some tzOff }
      | some o => .ok (dtAstimezone d o tzOff)
    | _ => .error "AttributeError: tzinfo"
  match nowE with
  | .error e => .error e
  | .ok now =>
    let dayBlocked : Bool :=
      match days with
      | some ds => !(ds.contains (pyWeekday now))
      | none => false
    if dayBlocked then .ok false
    else
      let nowT := now.tod
      if startT ≤ endT then .ok (decide (startT ≤ nowT) && decide (nowT ≤ endT))
      else .ok (decide (nowT ≥ startT) || decide (nowT ≤ endT))

mutual

/-- Evaluation of a compiled matcher on a context: the __call__ methods of
the matcher classes, with short circuit in the composites and exceptions
modelled by the error constructor.  The debug wrapper is transparent. -/
def Matcher.evalE : Matcher → EvalEnv → Ctx → Except String Bool
  | .constTrue, _, _ => .ok true
  | .constFalse, _, _ => .ok false
  | .all cs, env, ctx => Matcher.evalAllList cs env ctx
  | .anyOf cs, env, ctx => Matcher.evalAnyList cs env ctx
  | .noneOf c, env, ctx =>
    match c.evalE env ctx with
    | .error e => .error e
    | .ok b => .ok (!b)
  | .debugWrap inner _, env, ctx => inner.evalE env ctx
  | .valueIn field values coerce, _, ctx => valueInEval field values coerce ctx
  | .regexM field pattern mode _ coerce maxLen, _, ctx =>
    .ok (regexEval field pattern mode coerce maxLen ctx)
  | .amountRange field coerce scale minV maxV minInc maxInc, _, ctx =>
    .ok (amountRangeEval field coerce scale minV maxV minInc maxInc ctx)
  | .timeWindow tzOff startT endT days, env, ctx =>
    timeWindowEval env tzOff startT endT days ctx

/-- Short circuit conjunction over children (All.__call__). -/
def Matcher.evalAllList : List Matcher → EvalEnv → Ctx → Except String Bool
  | [], _, _ => .ok true
  | c :: cs, env, ctx =>
    match c.evalE env ctx with
    | .error e => .error e
    | .ok false => .ok false
    | .ok true => Matcher.evalAllList cs env ctx

/-- Short circuit disjunction over children (Any.__call__). -/
def Matcher.evalAnyList : List Matcher → EvalEnv → Ctx → Except String Bool
  | [], _, _ => .ok false
  | c :: cs, env, ctx =>
    match c.evalE env ctx with
    | .error e => .error e
    | .ok true => .ok true
    | .ok false => Matcher.evalAnyList cs env ctx

end

/-! ## SHA-256 over Nat

Embedding of hashlib.sha256 as used by _sticky_hash_bucket.  Words are
naturals reduced modulo 2 to the 32. -/

/-- The 32 bit modulus. -/
def m32 : Nat := 4294967296

/-- Right rotation of a 32 bit word. -/
def rotr32 (n x : Nat) : Nat := ((x >>> n) ||| (x <<< (32 - n))) % m32

/-- Small sigma 0 of the SHA-256 message schedule. -/
def sigmaSmall0 (x : Nat) : Nat := (rotr32 7 x) ^^^ (rotr32 18 x) ^^^ (x >>> 3)

/-- Small sigma 1 of the SHA-256 message schedule. -/
def sigmaSmall1 (x : Nat) : Nat := (rotr32 17 x) ^^^ (rotr32 19 x) ^^^ (x >>> 10)

/-- Big sigma 0 of the SHA-256 compression function. -/
def sigmaBig0 (x : Nat) : Nat := (rotr32 2 x) ^^^ (rotr32 13 x) ^^^ (rotr32 22 x)

/-- Big sigma 1 of the SHA-256 compression function. -/
def sigmaBig1 (x : Nat) : Nat := (rotr32 6 x) ^^^ (rotr32 11 x) ^^^ (rotr32 25 x)

/-- The 64 SHA-256 round constants, written in decimal. -/
def sha256K : List Nat :=
  [1116352408, 1899447441, 3049323471, 3921009573, 961987163,
   1508970993, 2453635748, 2870763221, 3624381080, 310598401,
   607225278, 1426881987, 1925078388, 2162078206, 2614888103,
   3248222580, 3835390401, 4022224774, 264347078, 604807628,
   770255983, 1249150122, 1555081692, 1996064986, 2554220882,
   2821834349, 2952996808, 3210313671, 3336571891, 3584528711,
   113926993, 338241895, 666307205, 773529912, 1294757372,
   1396182291, 1695183700, 1986661051, 2177026350, 2456956037,
   2730485921, 2820302411, 3259730800, 3345764771, 3516065817,
   3600352804, 4094571909, 275423344, 430227734, 506948616,
   659060556, 883997877, 958139571, 1322822218, 1537002063,
   1747873779, 1955562222, 2024104815, 2227730452, 2361852424,
   2428436474, 2756734187, 3204031479, 3329325298]

/-- The SHA-256 initial hash value, written in decimal. -/
def sha256H0 : List Nat :=
  [1779033703, 3144134277, 1013904242, 2773480762,
   1359893119, 2600822924, 528734635, 1541459225]

/-- SHA-256 padding: append 0x80, zeros to 56 mod 64, then the bit length on
eight big endian bytes. -/
def sha256Pad (msg : List Nat) : List Nat :=
  let L := msg.length
  let k := (56 + 64 - ((L + 1) % 64)) % 64
  msg ++ [0x80] ++ List.replicate k 0 ++
    ((List.range 8).map (fun i => ((L * 8) >>> (8 * (7 - i))) % 256))

/-- Big endian packing of bytes into 32 bit words. -/
def bytesToWords : List Nat → List Nat
  | b0 :: b1 :: b2 :: b3 :: rest => (((b0 * 256 + b1) * 256 + b2) * 256 + b3) :: bytesToWords rest
  | _ => []

/-- Split a word list into chunks of sixteen. -/
def chunks16 : List Nat → List (List Nat)
  | [] => []
  | w :: ws => (w :: ws.take 15) :: chunks16 (ws.drop 15)
termination_by l => l.length
decreasing_by simp [List.length_drop]; omega

/-- One message schedule extension step: append word i from words i minus 2,
7, 15 and 16. -/
def schedStep (w : List Nat) : List Nat :=
  let n := w.length
  w ++ [(sigmaSmall1 (w.getD (n - 2) 0) + w.getD (n - 7) 0 +
         sigmaSmall0 (w.getD (n - 15) 0) + w.getD (n - 16) 0) % m32]

/-- One SHA-256 compression round on the eight word state. -/
def sha256Round (state : List Nat) (kw : Nat × Nat) : List Nat :=
  match state with
  | [a, b, c, d, e, f, g, h] =>
    let ch := (e &&& f) ^^^ ((4294967295 - e) &&& g)
    let maj := (a &&& b) ^^^ (a &&& c) ^^^ (b &&& c)
    let t1 := (h + sigmaBig1 e + ch + kw.1 + kw.2) % m32
    let t2 := (sigmaBig0 a + maj) % m32
    [(t1 + t2) % m32, a, b, c, (d + t1) % m32, e, f, g]
  | s => s

/-- Compression of one sixteen word chunk into the running hash. -/
def sha256Chunk (h : List Nat) (chunk : List Nat) : List Nat :=
  let w := schedStep^[48] chunk
  let out := (sha256K.zip w).foldl sha256Round h
  (h.zip out).map (fun p => (p.1 + p.2) % m32)

/-- SHA-256 digest of a byte list, as the list of eight words. -/
def sha256Words (msg : List Nat) : List Nat :=
  (chunks16 (bytesToWords (sha256Pad msg))).foldl sha256Chunk sha256H0

/-- Model of int(sha256(s.encode(utf8)).hexdigest(), 16): the digest read as
one 256 bit big endian natural. -/
def sha256Nat (s : String) : Nat :=
  (sha256Words (s.toUTF8.toList.map (fun b => b.toNat))).foldl
    (fun acc w => acc * m32 + w) 0

/-! ## Selector (gateway_selector_v2/selector.py) -/

/-- Gateway configuration record
(postgresql/gateway_selector_v2/models.py, fields used by the selector). -/
structure GatewaySelectorGatewayConfig where
  id : Int
  name : String
  is_enabled : Bool
  in_maintenance : Bool
deriving Repr, DecidableEq

/-- Gateway map keyed by unique gateway name. -/
abbrev GwMap := List (String × GatewaySelectorGatewayConfig)

/-- Dict lookup on the gateway map (the Python .get). -/
def gwLookup (m : GwMap) (k : String) : Option GatewaySelectorGatewayConfig :=
  match m with
  | [] => none
  | (k0, g) :: rest => if k0 = k then some g else gwLookup rest k

/-- Embedding of _gw_ok: a gateway is usable iff enabled and not in
maintenance. -/
def _gw_ok (gw : GatewaySelectorGatewayConfig) : Bool :=
  gw.is_enabled && !gw.in_maintenance

/-- Rule action as stored on a compiled rule: the raw JSON dict of the
action, projected onto the keys the selector and the validator read.  A non
string route or gateway behaves like an absent one in both places, so those
keys are typed.  Weight values stay raw JSON values because the validator
coerces them with int. -/
structure ActionMap where
  route : Option String
  gateway : Option String
  weights : Option (List (String × Value))
  sticky_by : Option String
  reason_code : Option Value
deriving Repr

/-- Decision record returned by select_gateway (selector.py). -/
structure Decision where
  matched_rule_id : Option Int
  route : Option String
  gateway : Option String
  reason : String
deriving Repr, DecidableEq

/-- Compiled rule (compiler/ruleset_compiler.py). -/
structure CompiledRule where
  id : Int
  priority : Int
  enabled : Bool
  name : Option String
  predicate : Matcher
  action : ActionMap
deriving Repr

/-- Immutable compiled snapshot (compiler/ruleset_compiler.py).  The field
loaded_at_ms records a wall clock duration in the source and carries no
semantic content; it is fixed to zero here. -/
structure CompiledRuleset where
  ruleset_id : Int
  version : Int
  name : String
  sticky_salt : Option String
  rules : List CompiledRule
  gateways : GwMap
  default_gateway : Option String
  loaded_at_ms : Nat
  total_rules : Nat
deriving Repr

/-- Rounding of n over d, d positive and n nonnegative, to the nearest
integer with ties to even: the Python round applied to the exact ratio.  The
source computes the ratio in double precision; the results agree except on
ties that binary floats cannot represent, which no claim exercises. -/
def roundHalfEven (n d : Int) : Int :=
  let q := n / d
  let r := n % d
  if 2 * r < d then q
  else if 2 * r > d then q + 1
  else if q % 2 = 0 then q else q + 1

/-- Clamp and int coerce the weight values (first comprehension of
_normalize_weights); a value int cannot digest raises TypeError or
ValueError. -/
def cleanWeights : List (String × Value) → Except String (List (String × Int))
  | [] => .ok []
  | (k, v) :: rest =>
    match pyToInt v with
    | none => .error "int() conversion failed"
    | some iv =>
      match cleanWeights rest with
      | .error e => .error e
      | .ok tl => .ok ((k, max 0 iv) :: tl)

/-- Name ordered pair list, the sorted(items()) of a dict with string keys. -/
def sortPairsByName (l : List (String × Int)) : List (String × Int) :=
  List.insertionSort (fun a b => a.1 ≤ b.1) l

/-- Proportional rescale loop of _normalize_weights: every entry except the
last rounds its exact share, the last receives the remainder to one hundred. -/
def rescaleLoop (items : List (String × Int)) (total : Int) (acc : Int) :
    List (String × Int) :=
  match items with
  | [] => []
  | [(k, _)] => [(k, 100 - acc)]
  | (k, v) :: rest =>
    let pct := roundHalfEven (v * 100) total
    (k, pct) :: rescaleLoop rest total (acc + pct)

/-- Add a correction to the last entry (the diff adjustment of
_normalize_weights). -/
def addToLast (l : List (String × Int)) (d : Int) : List (String × Int) :=
  match l with
  | [] => []
  | [(k, v)] => [(k, v + d)]
  | x :: rest => x :: addToLast rest d

/-- Embedding of _normalize_weights (selector.py): clamp negatives to zero,
drop zeros, return the weights unchanged when they already sum to one
hundred, otherwise rescale proportionally in name order with the last entry
absorbing the rounding remainder. -/
def _normalize_weights (weights : List (String × Value)) :
    Except String (List (String × Int)) :=
  match cleanWeights weights with
  | .error e => .error e
  | .ok cleaned0 =>
    let cleaned := cleaned0.filter (fun p => p.2 > 0)
    let total := (cleaned.map (fun p => p.2)).sum
    if total = 0 then .ok []
    else if total = 100 then .ok cleaned
    else
      let out := rescaleLoop (sortPairsByName cleaned) total 0
      let diff := 100 - (out.map (fun p => p.2)).sum
      .ok (if diff = 0 then out else addToLast out diff)

/-- Embedding of _sticky_hash_bucket (selector.py): a stable bucket in 0..99
for a key and seed. -/
def _sticky_hash_bucket (key seed : String) : Nat :=
  sha256Nat (key ++ ":" ++ seed) % 100

/-- Sticky key construction inside _pick_weighted (selector.py lines 79-85):
when sticky_by names a populated context field the key is str of that value,
otherwise a fresh uuid4 string, modelled by the explicit rand argument. -/
def stickyKey (sticky_by : Option String) (ctx : Ctx) (rand : String) : String :=
  match sticky_by with
  | some s =>
    if s = "" then rand
    else
      match dictGet ctx s with
      | .vNone => rand
      | v => pyStr v
  | none => rand

/-- Cumulative walk of the name ordered normalized weights: first entry whose
cumulative percentage strictly exceeds the bucket. -/
def pickLoop (items : List (String × Int)) (bucket : Nat) (cum : Int) :
    Option String :=
  match items with
  | [] => none
  | (n, p) :: rest =>
    let cum2 := cum + p
    if (bucket : Int) < cum2 then some n else pickLoop rest bucket cum2

/-- Embedding of _pick_weighted (selector.py): filter the weighted names to
available gateways, normalize, hash the sticky key into a bucket, then walk
the cumulative distribution in name order.  The rand argument stands for the
uuid4 draw used when no sticky key is available. -/
def _pick_weighted (weights : List (String × Value)) (gateways : GwMap)
    (sticky_by : Option String) (ctx : Ctx) (seed : String) (rand : String) :
    Except String (Option GatewaySelectorGatewayConfig) :=
  let candidates := weights.filter (fun p =>
    match gwLookup gateways p.1 with
    | some g => _gw_ok g
    | none => false)
  if candidates.isEmpty then .ok none
  else
    match _normalize_weights candidates with
    | .error e => .error e
    | .ok norm =>
      if norm.isEmpty then .ok none
      else
        let key := stickyKey sticky_by ctx rand
        let bucket := _sticky_hash_bucket key seed
        let sortedNorm := sortPairsByName norm
        match pickLoop sortedNorm bucket 0 with
        | some name =>
          match gwLookup gateways name with
          | some g => .ok (some g)
          | none => .error "KeyError"
        | none =>
          match sortedNorm.getLast? with
          | some (name, _) =>
            match gwLookup gateways name with
            | some g => .ok (some g)
            | none => .error "KeyError"
          | none => .error "KeyError"

/-- Sticky seed string of resolve_action (selector.py line 115). -/
def stickySeed (snapshot : CompiledRuleset) (ruleId : Int) : String :=
  toString snapshot.ruleset_id ++ ":" ++ toString snapshot.version ++ ":" ++
    (snapshot.sticky_salt.getD "") ++ ":" ++ toString ruleId

/-- Embedding of resolve_action (selector.py): DENY denies, FIXED returns its
gateway when available, WEIGHTED delegates to the weighted picker, anything
else is an unknown route. -/
def resolve_action (rule : CompiledRule) (snapshot : CompiledRuleset)
    (ctx : Ctx) (rand : String) :
    Except String (Option GatewaySelectorGatewayConfig × String) :=
  let action := rule.action
  let seed := stickySeed snapshot rule.id
  if action.route = some "DENY" then .ok (none, "denied")
  else if action.route = some "FIXED" then
    match action.gateway with
    | some gwName =>
      match gwLookup snapshot.gateways gwName with
      | some gw =>
        if _gw_ok gw then .ok (some gw, "matched") else .ok (none, "fixed_unavailable")
      | none => .ok (none, "fixed_unavailable")
    | none => .ok (none, "fixed_unavailable")
  else if action.route = some "WEIGHTED" then
    match _pick_weighted (action.weights.getD []) snapshot.gateways
        action.sticky_by ctx seed rand with
    | .error e => .error e
    | .ok (some gw) => .ok (some gw, "matched")
    | .ok none => .ok (none, "weighted_unavailable")
  else .ok (none, "unknown_route")

/-- Rule loop of select_gateway (selector.py step 1): skip disabled rules,
evaluate predicates in order, resolve the first match; a denied action stops
with a denial, a resolved gateway stops with a match, an unresolvable action
falls through to the later rules.  Returns none when no rule decided. -/
def selectLoop (env : EvalEnv) (ctx : Ctx) (snapshot : CompiledRuleset)
    (rand : String) :
    List CompiledRule →
    Except String (Option (Option GatewaySelectorGatewayConfig × Decision))
  | [] => .ok none
  | rule :: rest =>
    if !rule.enabled then selectLoop env ctx snapshot rand rest
    else
      match rule.predicate.evalE env ctx with
      | .error e => .error e
      | .ok false => selectLoop env ctx snapshot rand rest
      | .ok true =>
        match resolve_action rule snapshot ctx rand with
        | .error e => .error e
        | .ok (gw, reason) =>
          if reason = "denied" then
            .ok (some (none, ⟨some rule.id, some "DENY", none, "denied"⟩))
          else
            match gw with
            | some g =>
              -- the route field reads (snapshot and action.get(route)); the
              -- snapshot operand is always truthy so only the route survives
              .ok (some (some g, ⟨some rule.id, rule.action.route, some g.name, reason⟩))
            | none => selectLoop env ctx snapshot rand rest

/-- Fallback gateway of step 2 of select_gateway: used when allowed and the
default gateway name is set, nonempty, known and available. -/
def fallbackGw (snapshot : CompiledRuleset) (allow_fallback : Bool) :
    Option GatewaySelectorGatewayConfig :=
  if allow_fallback then
    match snapshot.default_gateway with
    | some dn =>
      if dn = "" then none
      else
        match gwLookup snapshot.gateways dn with
        | some g => if _gw_ok g then some g else none
        | none => none
    | none => none
  else none

/-- Embedding of select_gateway (selector.py): ordered rule evaluation, then
the global fallback when allowed and the default gateway is set, nonempty and
available, otherwise no gateway with reason no_rule or no_available_gw
depending on whether any enabled rule exists.  The optional on_decision
observability callback is omitted: it receives the decision after the result
is fixed and cannot alter it. -/
def select_gateway (env : EvalEnv) (ctx : Ctx) (snapshot : CompiledRuleset)
    (allow_fallback : Bool) (rand : String) :
    Except String (Option GatewaySelectorGatewayConfig × Decision) :=
  match selectLoop env ctx snapshot rand snapshot.rules with
  | .error e => .error e
  | .ok (some res) => .ok res
  | .ok none =>
    match fallbackGw snapshot allow_fallback with
    | some g => .ok (some g, ⟨none, none, some g.name, "fallback"⟩)
    | none =>
      let reason := if snapshot.rules.any (fun r => r.enabled) then "no_available_gw" else "no_rule"
      .ok (none, ⟨none, none, none, reason⟩)

/-! ## Predicate JSON and matcher factories -/

/-- Predicate JSON tree (the grammar of section 6 of the spec): a composite
node carries exactly one of the keys all, any, none with a list body, a leaf
is an arbitrary JSON object.  Shape errors the Python compiler rejects
(multiple composite keys, non list bodies, non dict nodes) are unrepresentable
by construction; every remaining compile failure is modelled. -/
inductive PTree where
  | all (children : List PTree)
  | anyOf (children : List PTree)
  | noneOf (children : List PTree)
  | leaf (fields : List (String × Value))
deriving Repr

/-- Python truthiness of a value. -/
def pyTruthy : Value → Bool
  | .vNone => false
  | .int n => n ≠ 0
  | .str s => s ≠ ""
  | .bool b => b
  | .list l => !l.isEmpty
  | .dict d => !d.isEmpty
  | .dtime _ => true

/-- Int coercion of a whole value list, none when any element fails
(the build time precoercion of VALUE_IN with coerce int). -/
def coerceAllInt : List Value → Option (List Value)
  | [] => some []
  | v :: rest =>
    match pyToInt v with
    | none => none
    | some n => (coerceAllInt rest).map (fun tl => Value.int n :: tl)

/-- Embedding of make_value_in (gateway_selector/matchers/value_in.py):
require a string field and a list of values, validate coerce, then precoerce
the value set.  Building the frozenset hashes every member, so an unhashable
member under no coercion fails the build. -/
def make_value_in (cond : List (String × Value)) : Except String Matcher :=
  let field := dictGet cond "field"
  let values := if dictHas cond "values" then dictGet cond "values" else .list []
  match field, values with
  | .str f, .list vs =>
    match dictGet cond "coerce" with
    | .vNone =>
      if vs.all pyHashable then .ok (.valueIn f vs none)
      else .error "TypeError: unhashable type"
    | .str "int" =>
      match coerceAllInt vs with
      | some canon => .ok (.valueIn f canon (some "int"))
      | none => .error "int() conversion failed"
    | .str "str" => .ok (.valueIn f (vs.map (fun v => .str (pyStr v))) (some "str"))
    | .str "lower-str" =>
      .ok (.valueIn f (vs.map (fun v => .str (pyLower (pyStr v)))) (some "lower-str"))
    | _ => .error "VALUE_IN: coerce invalido"
  | _, _ => .error "VALUE_IN: field str y values list requeridos"

/-- Valid regex flag names and their re module values. -/
def _FLAG_MAP : List (String × Nat) :=
  [("IGNORECASE", 2), ("MULTILINE", 8), ("DOTALL", 16), ("ASCII", 256), ("VERBOSE", 64)]

/-- Embedding of _compose_flags: fold known flag names with bitwise or,
unknown names fail. -/
def _compose_flags : List Value → Except String Nat
  | [] => .ok 0
  | v :: rest =>
    match v with
    | .str s =>
      match (_FLAG_MAP.find? (fun p => p.1 = s)) with
      | some (_, n) =>
        match _compose_flags rest with
        | .error e => .error e
        | .ok acc => .ok (n ||| acc)
      | none => .error "REGEX.flags desconocido"
    | _ => .error "REGEX.flags desconocido"

/-- Embedding of make_regex (gateway_selector_v2/matchers/regex.py): field and
pattern must be strings, mode one of search, match, fullmatch, flags known,
coerce one of none, str, lower-str.  The pattern is stored for the literal
engine model; engine_timeout_ms is read but dropped (wall clock timeouts are
outside the embedding). -/
def make_regex (cond : List (String × Value)) : Except String Matcher :=
  let field := dictGet cond "field"
  let pattern := dictGet cond "pattern"
  let modev := if dictHas cond "mode" then dictGet cond "mode" else .str "search"
  let flagsIn := if dictHas cond "flags" then dictGet cond "flags" else .list []
  match field, pattern with
  | .str f, .str p =>
    match (match modev with
           | .str m =>
             if m = "search" || m = "match" || m = "fullmatch" then Except.ok m
             else Except.error "REGEX.mode invalido."
           | _ => Except.error "REGEX.mode invalido.") with
    | .error e => .error e
    | .ok m =>
      match (match dictGet cond "coerce" with
             | .vNone => Except.ok (none : Option String)
             | .str c =>
               if c = "str" || c = "lower-str" then Except.ok (some c)
               else Except.error "REGEX.coerce invalido."
             | _ => Except.error "REGEX.coerce invalido.") with
      | .error e => .error e
      | .ok coerce =>
        match (match dictGet cond "max_len" with
               | .vNone => Except.ok (none : Option Nat)
               | .int n =>
                 if n ≤ 0 then Except.error "REGEX.max_len debe ser int > 0."
                 else Except.ok (some n.toNat)
               | _ => Except.error "REGEX.max_len debe ser int > 0.") with
        | .error e => .error e
        | .ok maxLen =>
          match (match dictGet cond "engine_timeout_ms" with
                 | .vNone => Except.ok ()
                 | .int n =>
                   if n ≤ 0 then Except.error "REGEX.engine_timeout_ms debe ser int > 0."
                   else Except.ok ()
                 | _ => Except.error "REGEX.engine_timeout_ms debe ser int > 0.") with
          | .error e => .error e
          | .ok _ =>
            match (match flagsIn with
                   | .list fl => _compose_flags fl
                   | v => if pyTruthy v then Except.error "REGEX.flags desconocido" else Except.ok 0) with
            | .error e => .error e
            | .ok fv => .ok (Matcher.regexM f p m fv coerce maxLen)
  | _, _ => .error "REGEX: field y pattern son obligatorios"

/-- Embedding of make_amount_range
(gateway_selector_v2/matchers/amount_range.py). -/
def make_amount_range (cond : List (String × Value)) : Except String Matcher :=
  let fieldv := if dictHas cond "field" then dictGet cond "field" else .str "amount"
  match fieldv with
  | .str field =>
    let coercev := if dictHas cond "coerce" then dictGet cond "coerce" else .str "decimal"
    match (match coercev with
           | .vNone => Except.ok (none : Option String)
           | .str c =>
             if c = "int" || c = "decimal" then Except.ok (some c)
             else Except.error "AMOUNT_RANGE.coerce invalido."
           | _ => Except.error "AMOUNT_RANGE.coerce invalido.") with
    | .error e => .error e
    | .ok coerce =>
      let scalev := if dictHas cond "scale" then dictGet cond "scale" else .int 0
      match pyToInt scalev with
      | none => .error "int() conversion failed"
      | some sc =>
        if sc < 0 then .error "AMOUNT_RANGE.scale debe ser >= 0."
        else
          match (match dictGet cond "min" with
                 | .vNone => Except.ok (none : Option ℚ)
                 | v => match _to_decimal v with
                        | some q => Except.ok (some q)
                        | none => Except.error "AMOUNT_RANGE.min invalido.") with
          | .error e => .error e
          | .ok minV =>
            match (match dictGet cond "max" with
                   | .vNone => Except.ok (none : Option ℚ)
                   | v => match _to_decimal v with
                          | some q => Except.ok (some q)
                          | none => Except.error "AMOUNT_RANGE.max invalido.") with
            | .error e => .error e
            | .ok maxV =>
              if (match minV, maxV with
                  | some mn, some mx => decide (mx < mn)
                  | _, _ => false) then .error "AMOUNT_RANGE: max < min."
              else
                let minInc := pyTruthy (if dictHas cond "min_inclusive" then dictGet cond "min_inclusive" else .bool true)
                let maxInc := pyTruthy (if dictHas cond "max_inclusive" then dictGet cond "max_inclusive" else .bool true)
                .ok (.amountRange field coerce sc.toNat minV maxV minInc maxInc)
  | _ => .error "AMOUNT_RANGE.field debe ser string."

/-- Known zones of the tz database model with their standard offsets in
minutes east of utc.  Daylight saving shifts are not modelled. -/
def zoneOffsets : List (String × Int) :=
  [("UTC", 0), ("America/Sao_Paulo", -180), ("America/New_York", -300),
   ("America/Argentina/Buenos_Aires", -180), ("Europe/Madrid", 60)]

/-- Weekday names accepted by TIME_WINDOW. -/
def _DOW_MAP : List (String × Nat) :=
  [("mon", 0), ("monday", 0), ("tue", 1), ("tuesday", 1), ("wed", 2),
   ("wednesday", 2), ("thu", 3), ("thursday", 3), ("fri", 4), ("friday", 4),
   ("sat", 5), ("saturday", 5), ("sun", 6), ("sunday", 6)]

/-- Embedding of _parse_hms: HH:MM or HH:MM:SS with range checks, as
microseconds of day. -/
def _parse_hms (s : String) : Except String Nat :=
  let parts := splitOnChar ':' s
  match parts with
  | [hs, ms] =>
    match pyStrToInt hs, pyStrToInt ms with
    | some hh, some mm =>
      if 0 ≤ hh ∧ hh ≤ 23 ∧ 0 ≤ mm ∧ mm ≤ 59 then
        .ok (((hh.toNat * 60 + mm.toNat) * 60) * 1000000)
      else .error "TIME_WINDOW: valores fuera de rango."
    | _, _ => .error "int() conversion failed"
  | [hs, ms, ss] =>
    match pyStrToInt hs, pyStrToInt ms, pyStrToInt ss with
    | some hh, some mm, some sec =>
      if 0 ≤ hh ∧ hh ≤ 23 ∧ 0 ≤ mm ∧ mm ≤ 59 ∧ 0 ≤ sec ∧ sec ≤ 59 then
        .ok (((hh.toNat * 60 + mm.toNat) * 60 + sec.toNat) * 1000000)
      else .error "TIME_WINDOW: valores fuera de rango."
    | _, _, _ => .error "int() conversion failed"
  | _ => .error "TIME_WINDOW: formato de hora invalido"

/-- Embedding of _parse_days: names to weekday indices, unknown fails. -/
def _parse_days : List Value → Except String (List Nat)
  | [] => .ok []
  | d :: rest =>
    match _DOW_MAP.find? (fun p => p.1 = pyLower (pyStrip (pyStr d))) with
    | some (_, idx) =>
      match _parse_days rest with
      | .error e => .error e
      | .ok tl => .ok (idx :: tl)
    | none => .error "TIME_WINDOW: dia invalido"

/-- Embedding of make_time_window
(gateway_selector_v2/matchers/time_window.py): a known zone, start and end
times, optional weekday list. -/
def make_time_window (cond : List (String × Value)) : Except String Matcher :=
  match dictGet cond "tz" with
  | .str tzName =>
    match zoneOffsets.find? (fun p => p.1 = tzName) with
    | none => .error "ZoneInfoNotFoundError"
    | some (_, tzOff) =>
      match dictGet cond "start", dictGet cond "end" with
      | .str ss, .str es =>
        match _parse_hms ss, _parse_hms es with
        | .ok st, .ok en =>
          match dictGet cond "days_of_week" with
          | .vNone => .ok (.timeWindow tzOff st en none)
          | .list ds =>
            match _parse_days ds with
            | .error e => .error e
            | .ok idxs => .ok (.timeWindow tzOff st en (some idxs))
          | _ => .error "TIME_WINDOW: days_of_week debe ser lista."
        | .error e, _ => .error e
        | _, .error e => .error e
      | _, _ => .error "TIME_WINDOW: start y end deben ser strings."
  | _ => .error "TIME_WINDOW: tz es obligatorio."

/-- Embedding of build_matcher (gateway_selector_v2/matchers/base.py): look
up the factory registered for the type and impl of the leaf and run it.  The
registry holds the four leaf matchers at impl v1. -/
def build_matcher (cond : List (String × Value)) : Except String Matcher :=
  let implOk : Bool :=
    match dictGet cond "impl" with
    | .vNone => !(dictHas cond "impl")
    | .str s => s = "v1"
    | _ => false
  match dictGet cond "type" with
  | .str t =>
    if !implOk then .error "Matcher no registrado"
    else if t = "VALUE_IN" then make_value_in cond
    else if t = "REGEX" then make_regex cond
    else if t = "AMOUNT_RANGE" then make_amount_range cond
    else if t = "TIME_WINDOW" then make_time_window cond
    else .error "Matcher no registrado"
  | _ => .error "Matcher no registrado"

/-! ## Predicate compiler (compiler/rule_compiler.py) -/

/-- Single pass of _fold_constants_for_all: none signals an early
CONST_FALSE return, otherwise the kept children with CONST_TRUE dropped. -/
def keptForAll : List Matcher → Option (List Matcher)
  | [] => some []
  | .constFalse :: _ => none
  | .constTrue :: rest => keptForAll rest
  | ch :: rest => (keptForAll rest).map (fun tl => ch :: tl)

/-- Single pass of _fold_constants_for_any: none signals an early
CONST_TRUE return, otherwise the kept children with CONST_FALSE dropped. -/
def keptForAny : List Matcher → Option (List Matcher)
  | [] => some []
  | .constTrue :: _ => none
  | .constFalse :: rest => keptForAny rest
  | ch :: rest => (keptForAny rest).map (fun tl => ch :: tl)

/-- Embedding of _fold_constants_for_all. -/
def _fold_constants_for_all (children : List Matcher) : Matcher :=
  match keptForAll children with
  | none => .constFalse
  | some [] => .constTrue
  | some [m] => m
  | some ms => .all ms

/-- Embedding of _fold_constants_for_any. -/
def _fold_constants_for_any (children : List Matcher) : Matcher :=
  match keptForAny children with
  | none => .constTrue
  | some [] => .constFalse
  | some [m] => m
  | some ms => .anyOf ms

/-- Embedding of _flatten for kind all: splice nested All children. -/
def flattenAll (children : List Matcher) : List Matcher :=
  children.foldr
    (fun ch acc => match ch with | .all cs => cs ++ acc | _ => ch :: acc) []

/-- Embedding of _flatten for kind any: splice nested Any children. -/
def flattenAny (children : List Matcher) : List Matcher :=
  children.foldr
    (fun ch acc => match ch with | .anyOf cs => cs ++ acc | _ => ch :: acc) []

/-- Debug wrapping applied by compile_predicate when debug is on.  The label
argument of DebugWrap is presentational and not modelled. -/
def wrapIf (debug : Bool) (m : Matcher) : Matcher :=
  if debug then .debugWrap m "" else m

/-- Flatten, fold and wrap compiled children of an any node; this is exactly
what compile_predicate does for a dict with key any. -/
def mkAnyNode (children : List Matcher) (debug : Bool) : Matcher :=
  wrapIf debug (_fold_constants_for_any (flattenAny children))

mutual

/-- Embedding of compile_predicate (compiler/rule_compiler.py): recursively
compile composites with flattening and constant folding, build leaves through
the factory registry, optionally wrap each node for debug tracing. -/
def compile_predicate : PTree → Bool → Except String Matcher
  | .all cs, debug =>
    match compileList cs debug with
    | .error e => .error e
    | .ok children => .ok (wrapIf debug (_fold_constants_for_all (flattenAll children)))
  | .anyOf cs, debug =>
    match compileList cs debug with
    | .error e => .error e
    | .ok children => .ok (mkAnyNode children debug)
  | .noneOf cs, debug =>
    if cs.isEmpty then .ok (wrapIf debug .constTrue)
    else
      match compileList cs debug with
      | .error e => .error e
      | .ok children =>
        let anyNode := mkAnyNode children debug
        let node : Matcher :=
          match anyNode with
          | .constTrue => .constFalse
          | .constFalse => .constTrue
          | m => .noneOf m
        .ok (wrapIf debug node)
  | .leaf d, debug =>
    if d.isEmpty then .error "Nodo invalido: se esperaba objeto no vacio."
    else if !(dictHas d "type") then .error "Hoja invalida: se esperaba un objeto con type."
    else
      match build_matcher d with
      | .error e => .error e
      | .ok node => .ok (wrapIf debug node)

/-- Compilation of a composite body, aborting on the first failing child. -/
def compileList : List PTree → Bool → Except String (List Matcher)
  | [], _ => .ok []
  | c :: cs, debug =>
    match compile_predicate c debug with
    | .error e => .error e
    | .ok m =>
      match compileList cs debug with
      | .error e => .error e
      | .ok ms => .ok (m :: ms)

end

mutual

/-- Modelled from the spec: the naive recursive evaluation of a predicate
JSON tree, against which compile_predicate is compared (testable property 5
of the spec).  A composite evaluates its children in order with short
circuit, none is the negation of any, a leaf is built by the factory and
evaluated directly. -/
def naive_eval : PTree → EvalEnv → Ctx → Except String Bool
  | .all cs, env, ctx => naiveAllList cs env ctx
  | .anyOf cs, env, ctx => naiveAnyList cs env ctx
  | .noneOf cs, env, ctx =>
    match naiveAnyList cs env ctx with
    | .error e => .error e
    | .ok b => .ok (!b)
  | .leaf d, env, ctx =>
    match build_matcher d with
    | .error e => .error e
    | .ok m => m.evalE env ctx

/-- Naive short circuit conjunction of children. -/
def naiveAllList : List PTree → EvalEnv → Ctx → Except String Bool
  | [], _, _ => .ok true
  | c :: cs, env, ctx =>
    match naive_eval c env ctx with
    | .error e => .error e
    | .ok false => .ok false
    | .ok true => naiveAllList cs env ctx

/-- Naive short circuit disjunction of children. -/
def naiveAnyList : List PTree → EvalEnv → Ctx → Except String Bool
  | [], _, _ => .ok false
  | c :: cs, env, ctx =>
    match naive_eval c env ctx with
    | .error e => .error e
    | .ok true => .ok true
    | .ok false => naiveAnyList cs env ctx

end

/-! ## Ruleset compiler (compiler/ruleset_compiler.py)

The repository protocol performs four reads; the embedding models the data
those reads return, so the io bound orchestration becomes a pure function of
the repository contents. -/

/-- Rule set record as returned by the repository. -/
structure RuleSetRec where
  id : Int
  name : String
  version : Int
  sticky_salt : Option String
  default_gateway : Option String
deriving Repr, DecidableEq

/-- Raw rule record as returned by the repository.  The condition JSON is a
predicate tree; the action keeps its raw JSON projection. -/
structure RuleRec where
  id : Int
  priority : Int
  enabled : Bool
  name : Option String
  condition_type : Option String
  condition_value : Option String
  condition_json : Option PTree
  action : ActionMap
deriving Repr

/-- Contents of the repository: the active rule set, rule sets by id, rules
per rule set id (already ordered as the store returns them), and the gateway
map. -/
structure RepoData where
  active_ruleset : Option RuleSetRec
  rulesets_by_id : List (Int × RuleSetRec)
  rules_for : List (Int × List RuleRec)
  gateways : GwMap
deriving Repr

/-- Association lookup by integer key. -/
def intLookup {α : Type} (m : List (Int × α)) (k : Int) : Option α :=
  match m with
  | [] => none
  | (k0, v) :: rest => if k0 = k then some v else intLookup rest k

/-- Rules the repository returns for a rule set id. -/
def rulesForRuleset (repo : RepoData) (rid : Int) : List RuleRec :=
  (intLookup repo.rules_for rid).getD []

/-- Rule set the compiler works on: the one with the requested id, or the
active one when no id is requested (steps 1 of compile_ruleset). -/
def targetRuleset (repo : RepoData) (ruleset_id : Option Int) : Option RuleSetRec :=
  match ruleset_id with
  | some i => intLookup repo.rulesets_by_id i
  | none => repo.active_ruleset

/-- Allowed PIX key types (utils/pix_key_types.py). -/
def ALLOWED_PIX_TYPES : List String :=
  ["QRCODE", "QRCODE_STATIC", "QRCODE_DYNAMIC", "EMAIL", "PHONE", "EVP", "CPF", "CNPJ"]

/-- Embedding of _filter_to_condition_json (compiler/ruleset_compiler.py):
expand the USER, PIX_KEY and PIX_KEY_TYPE shorthands into VALUE_IN leaves;
ADVANCED is handled by the caller and asserts here; unknown types fail. -/
def _filter_to_condition_json (filter_type filter_value : String) :
    Except String PTree :=
  let ft := pyUpper filter_type
  if ft = "USER" then
    match pyStrToInt filter_value with
    | none => .error "USER requiere entero"
    | some uid =>
      .ok (.leaf [("type", .str "VALUE_IN"), ("field", .str "api_user_id"),
                  ("values", .list [.int uid]), ("coerce", .str "int")])
  else if ft = "PIX_KEY" then
    .ok (.leaf [("type", .str "VALUE_IN"), ("field", .str "pix_key"),
                ("values", .list [.str filter_value]), ("coerce", .str "str")])
  else if ft = "PIX_KEY_TYPE" then
    let t := pyUpper filter_value
    if ALLOWED_PIX_TYPES.contains t then
      .ok (.leaf [("type", .str "VALUE_IN"), ("field", .str "pix_key_type"),
                  ("values", .list [.str t])])
    else .error "PIX_KEY_TYPE invalido"
  else if ft = "ADVANCED" then .error "AssertionError: No expandir ADVANCED aqui"
  else .error "filter_type desconocido"

/-- Condition resolution step of the per rule loop of compile_ruleset: an
empty or missing condition_type means ADVANCED, ADVANCED requires the raw
condition JSON, the shorthand types require a condition value. -/
def resolveCondition (r : RuleRec) : Except String PTree :=
  let raw := r.condition_type.getD ""
  let ftype := pyUpper (if raw = "" then "ADVANCED" else raw)
  if ftype = "ADVANCED" then
    match r.condition_json with
    | none => .error "ADVANCED requiere condition_json"
    | some c => .ok c
  else
    match r.condition_value with
    | none => .error "requiere condition_value"
    | some fv => _filter_to_condition_json ftype fv

/-- Weight entry loop of _validate_action: every key a known gateway, every
value int coercible and nonnegative, at least one strictly positive. -/
def validateWeights (gateways : GwMap) :
    List (String × Value) → Bool → Except String Unit
  | [], anyValid =>
    if anyValid then .ok () else .error "WEIGHTED requiere al menos un peso > 0."
  | (name, pct) :: rest, anyValid =>
    if (gwLookup gateways name).isNone then .error "WEIGHTED gateway desconocido"
    else
      match pyToInt pct with
      | none => .error "WEIGHTED porcentaje invalido"
      | some iv =>
        if iv < 0 then .error "WEIGHTED porcentaje negativo"
        else validateWeights gateways rest (anyValid || iv > 0)

/-- Embedding of _validate_action (compiler/ruleset_compiler.py): the route
must be FIXED, WEIGHTED or DENY; FIXED needs a known gateway name, WEIGHTED a
nonempty weight dict over known gateways with nonnegative int values and one
positive, DENY an optional string reason code. -/
def _validate_action (action : ActionMap) (gateways : GwMap) :
    Except String Unit :=
  if !(action.route = some "FIXED" || action.route = some "WEIGHTED" ||
       action.route = some "DENY") then .error "action.route invalido"
  else if action.route = some "FIXED" then
    match action.gateway with
    | none => .error "FIXED requiere gateway string."
    | some gw =>
      if (gwLookup gateways gw).isSome then .ok ()
      else .error "FIXED gateway desconocido"
  else if action.route = some "WEIGHTED" then
    match action.weights with
    | none => .error "WEIGHTED requiere weights dict no vacio."
    | some ws =>
      if ws.isEmpty then .error "WEIGHTED requiere weights dict no vacio."
      else validateWeights gateways ws false
  else
    match action.reason_code with
    | none => .ok ()
    | some .vNone => .ok ()
    | some (.str _) => .ok ()
    | some _ => .error "DENY.reason_code debe ser string."

/-- Per rule body of the compile loop: resolve the condition, compile the
predicate, validate the action, assemble the compiled rule. -/
def compileRuleInner (r : RuleRec) (gateways : GwMap) (debug : Bool) :
    Except String CompiledRule :=
  match resolveCondition r with
  | .error e => .error e
  | .ok cond =>
    match compile_predicate cond debug with
    | .error e => .error e
    | .ok predicate =>
      match _validate_action r.action gateways with
      | .error e => .error e
      | .ok _ => .ok ⟨r.id, r.priority, r.enabled, r.name, predicate, r.action⟩

/-- Per rule loop with the surrounding try: any failure aborts the whole
compilation wrapped in a rule tagged message. -/
def compileRule (r : RuleRec) (gateways : GwMap) (debug : Bool) :
    Except String CompiledRule :=
  match compileRuleInner r gateways debug with
  | .error e => .error ("[RULE[" ++ toString r.id ++ "]] Error al compilar: " ++ e)
  | .ok cr => .ok cr

/-- Compilation of the whole rule list, aborting on the first failure. -/
def compileRules (gateways : GwMap) (debug : Bool) :
    List RuleRec → Except String (List CompiledRule)
  | [] => .ok []
  | r :: rest =>
    match compileRule r gateways debug with
    | .error e => .error e
    | .ok cr =>
      match compileRules gateways debug rest with
      | .error e => .error e
      | .ok tl => .ok (cr :: tl)

/-- Defensive stable sort by priority (the compiled_rules.sort of
compile_ruleset). -/
def sortRulesByPriority (l : List CompiledRule) : List CompiledRule :=
  List.insertionSort (fun a b => a.priority ≤ b.priority) l

/-- Embedding of compile_ruleset (compiler/ruleset_compiler.py): fetch the
requested or active rule set, require a nonempty gateway map, compile every
rule aborting on the first failure, re-sort by priority, validate the default
gateway, and assemble the immutable snapshot.  The wall clock load duration
is fixed to zero. -/
def compile_ruleset (repo : RepoData) (ruleset_id : Option Int) (debug : Bool) :
    Except String CompiledRuleset :=
  match targetRuleset repo ruleset_id with
  | none =>
    .error (match ruleset_id with
            | some _ => "No se encontro el ruleset con ese ID."
            | none => "No hay rule_set activo.")
  | some rs =>
    if repo.gateways.isEmpty then .error "No hay gateways configurados."
    else
      match compileRules repo.gateways debug (rulesForRuleset repo rs.id) with
      | .error e => .error e
      | .ok compiled =>
        let sortedRules := sortRulesByPriority compiled
        let defaultOk : Except String Unit :=
          match rs.default_gateway with
          | some dg =>
            if (gwLookup repo.gateways dg).isNone then
              .error "Default gateway desconocido"
            else .ok ()
          | none => .ok ()
        match defaultOk with
        | .error e => .error e
        | .ok _ =>
          .ok { ruleset_id := rs.id
                version := rs.version
                name := rs.name
                sticky_salt := rs.sticky_salt
                rules := sortedRules
                gateways := repo.gateways
                default_gateway := rs.default_gateway
                loaded_at_ms := 0
                total_rules := compiled.length }

/-! ## Concrete fixtures used by witnesses -/

/-- Disabled gateway A. -/
def gwOffA : GatewaySelectorGatewayConfig := ⟨1, "A", false, false⟩

/-- Available gateway B. -/
def gwOnB : GatewaySelectorGatewayConfig := ⟨2, "B", true, false⟩

/-- Available gateway C. -/
def gwOnC : GatewaySelectorGatewayConfig := ⟨3, "C", true, false⟩

/-- FIXED action to gateway A. -/
def actFixedA : ActionMap := ⟨some "FIXED", some "A", none, none, none⟩

/-- FIXED action to gateway B. -/
def actFixedB : ActionMap := ⟨some "FIXED", some "B", none, none, none⟩

/-- DENY action. -/
def actDeny : ActionMap := ⟨some "DENY", none, none, none, none⟩

/-- Weighted action 80 B / 20 C, sticky by api_user_id. -/
def actW80B20C : ActionMap :=
  ⟨some "WEIGHTED", none, some [("B", .int 80), ("C", .int 20)],
   some "api_user_id", none⟩

/-- Always matching weighted rule with sticky routing. -/
def ruleW80 : CompiledRule := ⟨7, 1, true, none, .constTrue, actW80B20C⟩

/-- Snapshot holding only the sticky weighted rule. -/
def snapW80 : CompiledRuleset :=
  ⟨1, 1, "rs", none, [ruleW80], [("B", gwOnB), ("C", gwOnC)], none, 0, 1⟩

/-- Always matching rule with priority 5 fixed to the unavailable A. -/
def ruleFixedA : CompiledRule := ⟨1, 5, true, none, .constTrue, actFixedA⟩

/-- Always matching rule with priority 10 fixed to the available B. -/
def ruleFixedB : CompiledRule := ⟨2, 10, true, none, .constTrue, actFixedB⟩

/-- Always matching deny rule. -/
def ruleDenyR : CompiledRule := ⟨3, 1, true, none, .constTrue, actDeny⟩

/-- Snapshot with the unavailable A first and the available B second. -/
def snapAB : CompiledRuleset :=
  ⟨1, 1, "rs", none, [ruleFixedA, ruleFixedB], [("A", gwOffA), ("B", gwOnB)],
   none, 0, 2⟩

/-- Snapshot whose only matching rule points at the unavailable A, with no
default gateway. -/
def snapOnlyA : CompiledRuleset :=
  ⟨1, 1, "rs", none, [ruleFixedA], [("A", gwOffA)], none, 0, 1⟩

/-- Snapshot whose first rule denies while an available default exists. -/
def snapDeny : CompiledRuleset :=
  ⟨1, 1, "rs", none, [ruleDenyR], [("B", gwOnB)], some "B", 0, 1⟩

/-- The VALUE_IN leaf of the C7 failing input, as raw predicate JSON. -/
def c7leaf : List (String × Value) :=
  [("type", .str "VALUE_IN"), ("field", .str "extra"), ("values", .list [.int 1])]

/-- Context whose extra field holds a dict, an unhashable value. -/
def c7ctx : Ctx := [("extra", .dict [("a", .int 1)])]

/-- Rule set fixture of the compile witnesses. -/
def rsRecW : RuleSetRec := ⟨1, "rs", 1, none, some "B"⟩

/-- Raw PIX_KEY rule fixture pointing at gateway B. -/
def ruleRecB : RuleRec := ⟨2, 10, true, none, some "PIX_KEY", some "k1", none, actFixedB⟩

/-- Repository fixture: one rule set, one rule, two gateways. -/
def repoW : RepoData :=
  ⟨some rsRecW, [(1, rsRecW)], [(1, [ruleRecB])], [("A", gwOffA), ("B", gwOnB)]⟩

/-- Snapshot compile_ruleset builds from the repository fixture. -/
def snapW10 : CompiledRuleset :=
  ⟨1, 1, "rs", none,
   [⟨2, 10, true, none, .valueIn "pix_key" [.str "k1"] (some "str"), actFixedB⟩],
   [("A", gwOffA), ("B", gwOnB)], some "B", 0, 1⟩

instance : IsTotal CompiledRule (fun a b => a.priority ≤ b.priority) :=
  ⟨fun a b => Int.le_total a.priority b.priority⟩

instance : IsTrans CompiledRule (fun a b => a.priority ≤ b.priority) :=
  ⟨fun _ _ _ h1 h2 => le_trans h1 h2⟩

/-- VALUE_IN leaf fixture of the C3 witness. -/
def c3leafFixture : List (String × Value) :=
  [("type", .str "VALUE_IN"), ("field", .str "f"), ("values", .list [.int 1])]

/-! ## Selector lemmas -/

/-- A rule whose action routes DENY always resolves to a denial. -/
theorem resolve_action_deny (rule : CompiledRule) (snapshot : CompiledRuleset)
    (ctx : Ctx) (rand : String) (h : rule.action.route = some "DENY") :
    resolve_action rule snapshot ctx rand = .ok (none, "denied") := by
  simp [resolve_action, h]

/-- A resolution that yields a gateway always carries the reason matched. -/
theorem resolve_action_some_matched (rule : CompiledRule)
    (snapshot : CompiledRuleset) (ctx : Ctx) (rand : String)
    (gw : GatewaySelectorGatewayConfig) (reason : String)
    (h : resolve_action rule snapshot ctx rand = .ok (some gw, reason)) :
    reason = "matched" := by
  simp only [resolve_action] at h
  repeat' split at h
  all_goals simp_all

/-- One rule of the loop is transparent when it is disabled, does not match,
or matches with an action that resolves to no gateway and no denial. -/
theorem selectLoop_cons_skip (env : EvalEnv) (ctx : Ctx)
    (snapshot : CompiledRuleset) (rand : String) (p : CompiledRule)
    (rest : List CompiledRule)
    (h : p.enabled = true →
      p.predicate.evalE env ctx = .ok false ∨
      (p.predicate.evalE env ctx = .ok true ∧
        ∃ reason, resolve_action p snapshot ctx rand = .ok (none, reason) ∧
          reason ≠ "denied")) :
    selectLoop env ctx snapshot rand (p :: rest) =
      selectLoop env ctx snapshot rand rest := by
  cases hen : p.enabled with
  | false => simp [selectLoop, hen]
  | true =>
    rcases h hen with hf | ⟨ht, reason, hres, hne⟩
    · simp [selectLoop, hen, hf]
    · simp [selectLoop, hen, ht, hres, hne]

/-- A block of transparent rules in front of the loop can be dropped. -/
theorem selectLoop_append_skip (env : EvalEnv) (ctx : Ctx)
    (snapshot : CompiledRuleset) (rand : String) (rest : List CompiledRule) :
    ∀ pre : List CompiledRule,
      (∀ p ∈ pre, p.enabled = true →
        p.predicate.evalE env ctx = .ok false ∨
        (p.predicate.evalE env ctx = .ok true ∧
          ∃ reason, resolve_action p snapshot ctx rand = .ok (none, reason) ∧
            reason ≠ "denied")) →
      selectLoop env ctx snapshot rand (pre ++ rest) =
        selectLoop env ctx snapshot rand rest
  | [], _ => rfl
  | p :: pre, h => by
    rw [List.cons_append,
      selectLoop_cons_skip env ctx snapshot rand p (pre ++ rest)
        (h p (List.mem_cons_self p pre)),
      selectLoop_append_skip env ctx snapshot rand rest pre
        (fun q hq hqe => h q (List.mem_cons_of_mem p hq) hqe)]

/-! ## C1, C2, C5 -/

/-- C1: on a compiled snapshot with rules sorted by priority ascending,
select_gateway returns the gateway produced by the first enabled rule in
priority order whose predicate accepts the context and whose action resolves
to an available gateway; enabled matching rules in front of it whose actions
yield no usable gateway (and no denial) are skipped and the later rule still
decides. -/
theorem select_gateway_first_resolvable_rule
    (env : EvalEnv) (ctx : Ctx) (snapshot : CompiledRuleset) (rand : String)
    (allow_fallback : Bool) (pre post : List CompiledRule) (r : CompiledRule)
    (gw : GatewaySelectorGatewayConfig) (reason : String)
    (_hsorted : snapshot.rules.Pairwise (fun a b => a.priority ≤ b.priority))
    (hrules : snapshot.rules = pre ++ r :: post)
    (hpre : ∀ p ∈ pre, p.enabled = true →
      p.predicate.evalE env ctx = .ok false ∨
      (p.predicate.evalE env ctx = .ok true ∧
        ∃ rs, resolve_action p snapshot ctx rand = .ok (none, rs) ∧ rs ≠ "denied"))
    (hen : r.enabled = true)
    (hmatch : r.predicate.evalE env ctx = .ok true)
    (hres : resolve_action r snapshot ctx rand = .ok (some gw, reason)) :
    select_gateway env ctx snapshot allow_fallback rand =
      .ok (some gw, ⟨some r.id, r.action.route, some gw.name, reason⟩) := by
  have hmat : reason = "matched" :=
    resolve_action_some_matched r snapshot ctx rand gw reason hres
  unfold select_gateway
  rw [hrules, selectLoop_append_skip env ctx snapshot rand (r :: post) pre hpre]
  simp [selectLoop, hen, hmatch, hres, hmat]

/-- Witness for C1: rule A matches first but its gateway is disabled, rule B
decides; this also exhibits the rule to rule fallback concretely. -/
theorem select_gateway_first_resolvable_rule_witness :
    resolve_action ruleFixedA snapAB [] "u" = .ok (none, "fixed_unavailable") ∧
    select_gateway ⟨0⟩ [] snapAB true "u" =
      .ok (some gwOnB, ⟨some ruleFixedB.id, ruleFixedB.action.route,
        some gwOnB.name, "matched"⟩) := by
  refine ⟨rfl, ?_⟩
  refine select_gateway_first_resolvable_rule ⟨0⟩ [] snapAB "u" true
    [ruleFixedA] [] ruleFixedB gwOnB "matched"
    (by norm_num [snapAB, ruleFixedA, ruleFixedB, List.pairwise_cons]) rfl ?_
    rfl rfl rfl
  intro p hp _
  rw [List.mem_singleton] at hp
  subst hp
  exact Or.inr ⟨rfl, "fixed_unavailable", rfl, by decide⟩

/-- C2: when the first enabled rule whose predicate accepts the context has a
DENY action, select_gateway returns no gateway and a denial naming that rule,
for every allow_fallback value and whatever the default gateway is; neither
later rules nor the fallback are consulted. -/
theorem select_gateway_deny_short_circuits
    (env : EvalEnv) (ctx : Ctx) (snapshot : CompiledRuleset) (rand : String)
    (allow_fallback : Bool) (pre post : List CompiledRule) (r : CompiledRule)
    (hrules : snapshot.rules = pre ++ r :: post)
    (hpre : ∀ p ∈ pre, p.enabled = true → p.predicate.evalE env ctx = .ok false)
    (hen : r.enabled = true)
    (hmatch : r.predicate.evalE env ctx = .ok true)
    (hdeny : r.action.route = some "DENY") :
    select_gateway env ctx snapshot allow_fallback rand =
      .ok (none, ⟨some r.id, some "DENY", none, "denied"⟩) := by
  have hres := resolve_action_deny r snapshot ctx rand hdeny
  unfold select_gateway
  rw [hrules,
    selectLoop_append_skip env ctx snapshot rand (r :: post) pre
      (fun p hp hpe => Or.inl (hpre p hp hpe))]
  simp [selectLoop, hen, hmatch, hres]

/-- Witness for C2: a deny rule with an available default gateway still
denies, with fallback allowed. -/
theorem select_gateway_deny_short_circuits_witness :
    fallbackGw snapDeny true = some gwOnB ∧
    select_gateway ⟨0⟩ [] snapDeny true "u" =
      .ok (none, ⟨some ruleDenyR.id, some "DENY", none, "denied"⟩) := by
  refine ⟨rfl, ?_⟩
  exact select_gateway_deny_short_circuits ⟨0⟩ [] snapDeny "u" true [] []
    ruleDenyR rfl (by intro p hp; simp at hp) rfl rfl rfl

/-- Counterexample for C5: a single enabled matching FIXED rule whose gateway
is unavailable, no other candidate; resolve_action reports fixed_unavailable
but the Decision select_gateway returns carries reason no_available_gw, not
fixed_unavailable. -/
theorem select_gateway_unavailable_reason_counterexample :
    resolve_action ruleFixedA snapOnlyA [] "u" = .ok (none, "fixed_unavailable") ∧
    select_gateway ⟨0⟩ [] snapOnlyA true "u" =
      .ok (none, ⟨none, none, none, "no_available_gw"⟩) ∧
    ¬ ∃ g d, select_gateway ⟨0⟩ [] snapOnlyA true "u" = .ok (g, d) ∧
      d.reason = "fixed_unavailable" := by
  refine ⟨rfl, rfl, ?_⟩
  rintro ⟨g, d, heq, hreason⟩
  have hval : select_gateway ⟨0⟩ [] snapOnlyA true "u" =
      .ok (none, ⟨none, none, none, "no_available_gw"⟩) := rfl
  rw [hval] at heq
  injection heq with h1
  injection h1 with hg hd
  rw [← hd] at hreason
  simp at hreason

/-- C5 amended: when every enabled rule either does not match or matches with
an action that resolves to no gateway and no denial (FIXED to an unavailable
gateway or WEIGHTED with no available candidate), at least one enabled rule
exists and the fallback yields nothing, the Decision reason is
no_available_gw; the fixed_unavailable and weighted_unavailable reasons stay
inside resolve_action and are not surfaced by select_gateway. -/
theorem select_gateway_unresolvable_gives_no_available_gw
    (env : EvalEnv) (ctx : Ctx) (snapshot : CompiledRuleset) (rand : String)
    (allow_fallback : Bool)
    (hall : ∀ p ∈ snapshot.rules, p.enabled = true →
      p.predicate.evalE env ctx = .ok false ∨
      (p.predicate.evalE env ctx = .ok true ∧
        ∃ rs, resolve_action p snapshot ctx rand = .ok (none, rs) ∧ rs ≠ "denied"))
    (hsome : ∃ p ∈ snapshot.rules, p.enabled = true)
    (hfb : fallbackGw snapshot allow_fallback = none) :
    select_gateway env ctx snapshot allow_fallback rand =
      .ok (none, ⟨none, none, none, "no_available_gw"⟩) := by
  unfold select_gateway
  have hloop : selectLoop env ctx snapshot rand snapshot.rules = .ok none := by
    have h := selectLoop_append_skip env ctx snapshot rand [] snapshot.rules hall
    simpa using h
  rw [hloop, hfb]
  rcases hsome with ⟨p, hp, hpe⟩
  have hany : snapshot.rules.any (fun r => r.enabled) = true :=
    List.any_eq_true.mpr ⟨p, hp, hpe⟩
  simp [hany]

/-- Witness for the amended C5 on the concrete one rule snapshot. -/
theorem select_gateway_unresolvable_gives_no_available_gw_witness :
    select_gateway ⟨0⟩ [] snapOnlyA false "u" =
      .ok (none, ⟨none, none, none, "no_available_gw"⟩) := by
  refine select_gateway_unresolvable_gives_no_available_gw ⟨0⟩ [] snapOnlyA "u"
    false ?_ ⟨ruleFixedA, by exact List.mem_cons_self _ _, rfl⟩ rfl
  intro p hp _
  rw [show snapOnlyA.rules = [ruleFixedA] from rfl, List.mem_singleton] at hp
  subst hp
  exact Or.inr ⟨rfl, "fixed_unavailable", rfl, by decide⟩

/-! ## C6, C9: sticky key and determinism -/

/-- When the sticky field is populated the sticky key is the str of its
value and the uuid draw is ignored. -/
theorem stickyKey_of_present (s : String) (ctx : Ctx) (rand : String)
    (v : Value) (hne : s ≠ "") (hget : dictGet ctx s = v) (hv : v ≠ .vNone) :
    stickyKey (some s) ctx rand = pyStr v := by
  show (if s = "" then rand
        else match dictGet ctx s with
             | Value.vNone => rand
             | v => pyStr v) = pyStr v
  rw [if_neg hne, hget]
  cases v with
  | vNone => exact absurd rfl hv
  | int n => rfl
  | str s0 => rfl
  | bool b => rfl
  | list l => rfl
  | dict d => rfl
  | dtime d => rfl

/-- The weighted picker depends on the context only through the sticky key. -/
theorem pick_weighted_congr_key (weights : List (String × Value))
    (gateways : GwMap) (sticky_by : Option String) (ctx1 ctx2 : Ctx)
    (seed rand1 rand2 : String)
    (h : stickyKey sticky_by ctx1 rand1 = stickyKey sticky_by ctx2 rand2) :
    _pick_weighted weights gateways sticky_by ctx1 seed rand1 =
      _pick_weighted weights gateways sticky_by ctx2 seed rand2 := by
  unfold _pick_weighted
  rw [h]

/-- C6: for a WEIGHTED dispatch whose sticky_by field is populated in the
context, the chosen gateway is a deterministic function of the sticky value,
the seed, the weights and the gateway map: the per request uuid draw never
enters, so two runs with identical such inputs pick the identical gateway;
consequently resolve_action on any rule with that sticky field, under the
seed ruleset_id:version:salt:rule_id, is run independent as well. -/
theorem pick_weighted_sticky_deterministic (weights : List (String × Value))
    (gateways : GwMap) (s : String) (ctx1 ctx2 : Ctx) (seed : String)
    (rand1 rand2 : String) (v : Value) (hne : s ≠ "")
    (h1 : dictGet ctx1 s = v) (h2 : dictGet ctx2 s = v) (hv : v ≠ .vNone) :
    _pick_weighted weights gateways (some s) ctx1 seed rand1 =
      _pick_weighted weights gateways (some s) ctx2 seed rand2 ∧
    ∀ (rule : CompiledRule) (snapshot : CompiledRuleset),
      rule.action.sticky_by = some s →
      resolve_action rule snapshot ctx1 rand1 =
        resolve_action rule snapshot ctx2 rand2 := by
  have hkey : stickyKey (some s) ctx1 rand1 = stickyKey (some s) ctx2 rand2 :=
    (stickyKey_of_present s ctx1 rand1 v hne h1 hv).trans
      (stickyKey_of_present s ctx2 rand2 v hne h2 hv).symm
  constructor
  · exact pick_weighted_congr_key weights gateways (some s) ctx1 ctx2 seed
      rand1 rand2 hkey
  · intro rule snapshot hsb
    simp only [resolve_action, hsb,
      pick_weighted_congr_key (rule.action.weights.getD []) snapshot.gateways
        (some s) ctx1 ctx2 (stickySeed snapshot rule.id) rand1 rand2 hkey]

/-- Witness for C6: two runs with different uuid draws and contexts agreeing
on the sticky field pick the same gateway, and the weighted rule resolves
identically across the two runs. -/
theorem pick_weighted_sticky_deterministic_witness :
    (_pick_weighted [("B", .int 80), ("C", .int 20)] [("B", gwOnB), ("C", gwOnC)]
        (some "api_user_id") [("api_user_id", .int 42)] "1:1::3" "uuid-one" =
      _pick_weighted [("B", .int 80), ("C", .int 20)] [("B", gwOnB), ("C", gwOnC)]
        (some "api_user_id") [("api_user_id", .int 42), ("env", .str "prod")]
        "1:1::3" "uuid-two") ∧
    resolve_action ruleW80 snapW80 [("api_user_id", .int 42)] "uuid-one" =
      resolve_action ruleW80 snapW80
        [("api_user_id", .int 42), ("env", .str "prod")] "uuid-two" := by
  have h := pick_weighted_sticky_deterministic [("B", .int 80), ("C", .int 20)]
    [("B", gwOnB), ("C", gwOnC)] "api_user_id" [("api_user_id", .int 42)]
    [("api_user_id", .int 42), ("env", .str "prod")] "1:1::3"
    "uuid-one" "uuid-two" (.int 42) (by decide) rfl rfl (by simp)
  exact ⟨h.1, h.2 ruleW80 snapW80 rfl⟩

/-- Counterexample for C9: a boolean sticky value stringifies as the Python
capitalized True, not as the lowercased true the claim states. -/
theorem sticky_key_bool_counterexample :
    stickyKey (some "f") [("f", .bool true)] "R" = "True" ∧
    stickyKey (some "f") [("f", .bool true)] "R" ≠ "true" := by
  constructor
  · rfl
  · intro h
    have : ("True" : String) = "true" := by rw [← h]; rfl
    simp at this

/-- C9 amended: in the sticky key, boolean values stringify as the Python
capitalized True and False, and integer values as base ten decimals with a
leading minus for negatives. -/
theorem sticky_key_stringification (ctx : Ctx) (s rand : String) (b : Bool)
    (n : Int) (hne : s ≠ "") :
    (dictGet ctx s = .bool b →
      stickyKey (some s) ctx rand = (if b then "True" else "False")) ∧
    (dictGet ctx s = .int n →
      stickyKey (some s) ctx rand = toString n) := by
  constructor
  · intro hget
    rw [stickyKey_of_present s ctx rand (.bool b) hne hget (by simp)]
    cases b <;> rfl
  · intro hget
    rw [stickyKey_of_present s ctx rand (.int n) hne hget (by simp)]
    rfl

/-- Witness for the amended C9 at a true boolean and a negative integer. -/
theorem sticky_key_stringification_witness :
    stickyKey (some "f") [("f", .bool true)] "R1" = "True" ∧
    stickyKey (some "g") [("g", .int (-7))] "R2" = "-7" := by
  constructor
  · exact ((sticky_key_stringification [("f", .bool true)] "f" "R1" true 0
      (by decide)).1 rfl).trans (by rfl)
  · exact ((sticky_key_stringification [("g", .int (-7))] "g" "R2" true (-7)
      (by decide)).2 rfl).trans (by rfl)

/-! ## C7: matcher evaluation can raise -/

/-- C7: the claim says every compiled matcher evaluates to a boolean without
raising on every context; the code disagrees.  The factory accepts a
VALUE_IN without coercion, and evaluating it on a context whose field holds a
dict raises TypeError from the frozenset membership test (v in self.values in
ValueIn.__call__), instead of returning false.  Missing fields and failed int
coercions do return false.  TIME_WINDOW likewise raises AttributeError when
the now entry of the context is not a datetime. -/
theorem value_in_unhashable_raises :
    build_matcher c7leaf = .ok (.valueIn "extra" [.int 1] none) ∧
    (Matcher.valueIn "extra" [.int 1] none).evalE ⟨0⟩ c7ctx =
      .error "TypeError: unhashable type" ∧
    (Matcher.valueIn "missing" [.int 1] none).evalE ⟨0⟩ c7ctx = .ok false ∧
    (Matcher.valueIn "extra" [.int 1] (some "int")).evalE ⟨0⟩ c7ctx = .ok false ∧
    (Matcher.timeWindow 0 0 3600000000 none).evalE ⟨0⟩ [("now", .str "hello")] =
      .error "AttributeError: tzinfo" := by
  exact ⟨rfl, rfl, rfl, rfl, rfl⟩

/-! ## C8: time window semantics -/

/-- C8: the TIME_WINDOW matcher returns true exactly when the evaluated time
t (ctx now with the zone attached when naive and converted when aware, or the
wall clock in the zone when absent) is permitted by days_of_week and falls in
the window: inside the inclusive same day interval when start is at most end,
and past start or before end when the window crosses midnight. -/
theorem time_window_semantics (env : EvalEnv) (tzOff : Int) (st en : Nat)
    (days : Option (List Nat)) (ctx : Ctx) (t : PyDatetime)
    (ht : (dictGet ctx "now" = .vNone ∧ t = dtFromAbs env.nowAbs tzOff) ∨
          (∃ d, dictGet ctx "now" = .dtime d ∧ d.tz = none ∧
            t = { d with tz := some tzOff }) ∨
          (∃ d o, dictGet ctx "now" = .dtime d ∧ d.tz = some o ∧
            t = dtAstimezone d o tzOff)) :
    (Matcher.timeWindow tzOff st en days).evalE env ctx = .ok true ↔
      ((∀ ds, days = some ds → ds.contains (pyWeekday t) = true) ∧
       (if st ≤ en then st ≤ t.tod ∧ t.tod ≤ en
        else t.tod ≥ st ∨ t.tod ≤ en)) := by
  have hbody : (Matcher.timeWindow tzOff st en days).evalE env ctx =
      timeWindowEval env tzOff st en days ctx := rfl
  rw [hbody]
  unfold timeWindowEval
  have hnow : (match dictGet ctx "now" with
      | .vNone => Except.ok (dtFromAbs env.nowAbs tzOff)
      | .dtime d =>
        match d.tz with
        | none => Except.ok { d with tz := some tzOff }
        | some o => Except.ok (dtAstimezone d o tzOff)
      | _ => Except.error "AttributeError: tzinfo") = .ok t := by
    rcases ht with ⟨hget, htv⟩ | ⟨d, hget, hdtz, htv⟩ | ⟨d, o, hget, hdtz, htv⟩
    · subst htv; simp [hget]
    · subst htv; simp [hget, hdtz]
    · subst htv; simp [hget, hdtz]
  rw [hnow]
  cases days with
  | none =>
    by_cases hse : st ≤ en <;>
      simp [hse, decide_eq_true_eq]
  | some ds =>
    by_cases hdb : pyWeekday t ∈ ds <;>
      by_cases hse : st ≤ en <;>
        simp [hse, hdb, decide_eq_true_eq]

/-- Witness for C8: the overnight Sao Paulo window 22:00 to 06:00 accepts
five in the morning local time (scenario S6 of the spec). -/
theorem time_window_semantics_witness :
    (Matcher.timeWindow (-180) 79200000000 21600000000 none).evalE ⟨0⟩
      [("now", .dtime ⟨19358, 18000000000, some (-180)⟩)] = .ok true := by
  refine (time_window_semantics ⟨0⟩ (-180) 79200000000 21600000000 none
    [("now", .dtime ⟨19358, 18000000000, some (-180)⟩)]
    (dtAstimezone ⟨19358, 18000000000, some (-180)⟩ (-180) (-180))
    (Or.inr (Or.inr ⟨⟨19358, 18000000000, some (-180)⟩, -180, rfl, rfl, rfl⟩))).mpr
    ⟨(by intro ds h; cases h), ?_⟩
  rw [if_neg (by decide)]
  exact Or.inr (by decide)

/-! ## C10: validated snapshots never reach the unknown route branch -/

/-- A successful compileRule decomposes into its three stages, and the
compiled rule copies the raw fields. -/
theorem compileRule_ok_parts (r : RuleRec) (gateways : GwMap) (debug : Bool)
    (cr : CompiledRule) (h : compileRule r gateways debug = .ok cr) :
    ∃ cond m, resolveCondition r = .ok cond ∧
      compile_predicate cond debug = .ok m ∧
      _validate_action r.action gateways = .ok () ∧
      cr = ⟨r.id, r.priority, r.enabled, r.name, m, r.action⟩ := by
  unfold compileRule compileRuleInner at h
  cases hcond : resolveCondition r with
  | error e => simp [hcond] at h
  | ok cond =>
    simp only [hcond] at h
    cases hm : compile_predicate cond debug with
    | error e => simp [hm] at h
    | ok m =>
      simp only [hm] at h
      cases hval : _validate_action r.action gateways with
      | error e => simp [hval] at h
      | ok u =>
        cases u
        simp only [hval] at h
        refine ⟨cond, m, rfl, hm, rfl, ?_⟩
        injection h with h1
        exact h1.symm

/-- Every rule of a successful bulk compilation comes from a successful
compileRule on some input rule. -/
theorem compileRules_mem (gateways : GwMap) (debug : Bool) :
    ∀ rrs crs, compileRules gateways debug rrs = .ok crs →
      ∀ cr ∈ crs, ∃ r ∈ rrs, compileRule r gateways debug = .ok cr := by
  intro rrs
  induction rrs with
  | nil =>
    intro crs h cr hmem
    simp only [compileRules] at h
    cases h
    simp at hmem
  | cons r rest ih =>
    intro crs h cr hmem
    simp only [compileRules] at h
    split at h
    · cases h
    next cr0 hr0 =>
      split at h
      · cases h
      next tl htl =>
        cases h
        rcases List.mem_cons.mp hmem with hcr | hcr
        · exact ⟨r, List.mem_cons_self r rest, hcr ▸ hr0⟩
        · rcases ih tl htl cr hcr with ⟨r1, hr1, hok⟩
          exact ⟨r1, List.mem_cons_of_mem r hr1, hok⟩

/-- A validated action routes FIXED, WEIGHTED or DENY. -/
theorem validate_action_route (a : ActionMap) (gws : GwMap)
    (h : _validate_action a gws = .ok ()) :
    a.route = some "FIXED" ∨ a.route = some "WEIGHTED" ∨ a.route = some "DENY" := by
  unfold _validate_action at h
  split at h
  · cases h
  next hc =>
    have hb : (decide (a.route = some "FIXED") ||
        decide (a.route = some "WEIGHTED") ||
        decide (a.route = some "DENY")) = true := by
      revert hc
      cases hdec : (decide (a.route = some "FIXED") ||
          decide (a.route = some "WEIGHTED") || decide (a.route = some "DENY")) <;>
        simp
    simpa [Bool.or_eq_true, decide_eq_true_eq, or_assoc] using hb

/-- On a rule whose action routes FIXED, WEIGHTED or DENY, resolve_action
never reports unknown_route. -/
theorem resolve_action_known_route (rule : CompiledRule)
    (snapshot : CompiledRuleset) (ctx : Ctx) (rand : String)
    (gw : Option GatewaySelectorGatewayConfig) (reason : String)
    (hroute : rule.action.route = some "FIXED" ∨
      rule.action.route = some "WEIGHTED" ∨ rule.action.route = some "DENY")
    (h : resolve_action rule snapshot ctx rand = .ok (gw, reason)) :
    reason ≠ "unknown_route" := by
  simp only [resolve_action] at h
  repeat' split at h
  all_goals (try simp_all)
  all_goals (rcases h with ⟨h1, h2⟩; subst h2; decide)

/-- A decided loop outcome either denies or matches. -/
theorem selectLoop_reason (env : EvalEnv) (ctx : Ctx)
    (snapshot : CompiledRuleset) (rand : String) :
    ∀ l g0 d0, selectLoop env ctx snapshot rand l = .ok (some (g0, d0)) →
      d0.reason = "denied" ∨ d0.reason = "matched" := by
  intro l
  induction l with
  | nil =>
    intro g0 d0 h
    simp [selectLoop] at h
  | cons r rest ih =>
    intro g0 d0 h
    by_cases hen : r.enabled = true
    · cases heval : r.predicate.evalE env ctx with
      | error e =>
        rw [show selectLoop env ctx snapshot rand (r :: rest) = .error e by
          simp [selectLoop, hen, heval]] at h
        cases h
      | ok b =>
        cases b with
        | false =>
          rw [show selectLoop env ctx snapshot rand (r :: rest) =
              selectLoop env ctx snapshot rand rest by
            simp [selectLoop, hen, heval]] at h
          exact ih g0 d0 h
        | true =>
          have hstep : selectLoop env ctx snapshot rand (r :: rest) =
              (match resolve_action r snapshot ctx rand with
               | .error e => .error e
               | .ok (gw, reason) =>
                 if reason = "denied" then
                   .ok (some (none, ⟨some r.id, some "DENY", none, "denied"⟩))
                 else
                   match gw with
                   | some g =>
                     .ok (some (some g,
                       ⟨some r.id, r.action.route, some g.name, reason⟩))
                   | none => selectLoop env ctx snapshot rand rest) := by
            simp [selectLoop, hen, heval]
          rw [hstep] at h
          cases hres : resolve_action r snapshot ctx rand with
          | error e => simp [hres] at h
          | ok p =>
            obtain ⟨gw, reason⟩ := p
            simp only [hres] at h
            by_cases hd : reason = "denied"
            · rw [if_pos hd] at h
              injection h with h1
              injection h1 with h2
              injection h2 with hg hd0
              rw [← hd0]
              exact Or.inl rfl
            · rw [if_neg hd] at h
              cases gw with
              | some g =>
                injection h with h1
                injection h1 with h2
                injection h2 with hg hd0
                rw [← hd0]
                exact Or.inr
                  (resolve_action_some_matched r snapshot ctx rand g reason hres)
              | none => exact ih g0 d0 h
    · have hen2 : r.enabled = false := by revert hen; cases r.enabled <;> simp
      rw [show selectLoop env ctx snapshot rand (r :: rest) =
          selectLoop env ctx snapshot rand rest by simp [selectLoop, hen2]] at h
      exact ih g0 d0 h

/-- Every decision select_gateway emits carries one of the five reasons
denied, matched, fallback, no_rule, no_available_gw. -/
theorem select_gateway_reason (env : EvalEnv) (ctx : Ctx)
    (snapshot : CompiledRuleset) (allow : Bool) (rand : String)
    (g : Option GatewaySelectorGatewayConfig) (d : Decision)
    (h : select_gateway env ctx snapshot allow rand = .ok (g, d)) :
    d.reason = "denied" ∨ d.reason = "matched" ∨ d.reason = "fallback" ∨
      d.reason = "no_rule" ∨ d.reason = "no_available_gw" := by
  unfold select_gateway at h
  cases hloop : selectLoop env ctx snapshot rand snapshot.rules with
  | error e => simp [hloop] at h
  | ok o =>
    simp only [hloop] at h
    cases o with
    | some res =>
      obtain ⟨g0, d0⟩ := res
      injection h with h1
      injection h1 with hg hd
      rw [← hd]
      rcases selectLoop_reason env ctx snapshot rand snapshot.rules g0 d0 hloop
        with h1 | h1
      · exact Or.inl h1
      · exact Or.inr (Or.inl h1)
    | none =>
      cases hfb : fallbackGw snapshot allow with
      | some gg =>
        simp only [hfb] at h
        injection h with h1
        injection h1 with hg hd
        rw [← hd]
        exact Or.inr (Or.inr (Or.inl rfl))
      | none =>
        simp only [hfb] at h
        by_cases hany : snapshot.rules.any (fun r => r.enabled) = true
        · rw [show (if snapshot.rules.any (fun r => r.enabled) = true
              then "no_available_gw" else "no_rule") = "no_available_gw" by
            rw [if_pos hany]] at h
          injection h with h1
          injection h1 with hg hd
          rw [← hd]
          exact Or.inr (Or.inr (Or.inr (Or.inr rfl)))
        · rw [show (if snapshot.rules.any (fun r => r.enabled) = true
              then "no_available_gw" else "no_rule") = "no_rule" by
            rw [if_neg hany]] at h
          injection h with h1
          injection h1 with hg hd
          rw [← hd]
          exact Or.inr (Or.inr (Or.inr (Or.inl rfl)))

/-- A successful ruleset compilation decomposes into its stages. -/
theorem compile_ruleset_ok_parts (repo : RepoData) (rid : Option Int)
    (debug : Bool) (snap : CompiledRuleset)
    (h : compile_ruleset repo rid debug = .ok snap) :
    ∃ rs crs, targetRuleset repo rid = some rs ∧
      repo.gateways ≠ [] ∧
      compileRules repo.gateways debug (rulesForRuleset repo rs.id) = .ok crs ∧
      snap.rules = sortRulesByPriority crs ∧
      snap.gateways = repo.gateways ∧
      snap.default_gateway = rs.default_gateway ∧
      snap.total_rules = crs.length := by
  unfold compile_ruleset at h
  cases hrs : targetRuleset repo rid with
  | none => simp [hrs] at h
  | some rs =>
    simp only [hrs] at h
    by_cases hgw : repo.gateways.isEmpty = true
    · simp [hgw] at h
    · rw [if_neg hgw] at h
      have hne : repo.gateways ≠ [] := by
        intro hnil
        exact hgw (by simp [hnil])
      cases hcrs : compileRules repo.gateways debug (rulesForRuleset repo rs.id) with
      | error e => simp [hcrs] at h
      | ok crs =>
        simp only [hcrs] at h
        cases hdg : rs.default_gateway with
        | none =>
          simp only [hdg] at h
          injection h with h1
          exact ⟨rs, crs, rfl, hne, hcrs, by rw [← h1], by rw [← h1],
            by rw [← h1, hdg], by rw [← h1]⟩
        | some dg =>
          simp only [hdg] at h
          by_cases hlook : (gwLookup repo.gateways dg).isNone = true
          · simp [hlook] at h
          · rw [if_neg hlook] at h
            simp only [] at h
            injection h with h1
            exact ⟨rs, crs, rfl, hne, hcrs, by rw [← h1], by rw [← h1],
              by rw [← h1, hdg], by rw [← h1]⟩

/-- C10: every rule of a snapshot built by compile_ruleset has route FIXED,
WEIGHTED or DENY; resolve_action therefore never answers unknown_route on
such a snapshot, and no decision select_gateway returns on it carries reason
unknown_route. -/
theorem compiled_snapshot_no_unknown_route (repo : RepoData) (rid : Option Int)
    (debug : Bool) (snap : CompiledRuleset) (env : EvalEnv) (ctx : Ctx)
    (allow : Bool) (rand : String)
    (g : Option GatewaySelectorGatewayConfig) (d : Decision)
    (hc : compile_ruleset repo rid debug = .ok snap)
    (hs : select_gateway env ctx snap allow rand = .ok (g, d)) :
    (∀ r ∈ snap.rules, r.action.route = some "FIXED" ∨
      r.action.route = some "WEIGHTED" ∨ r.action.route = some "DENY") ∧
    (∀ r ∈ snap.rules, ∀ gw reason,
      resolve_action r snap ctx rand = .ok (gw, reason) →
        reason ≠ "unknown_route") ∧
    d.reason ≠ "unknown_route" := by
  rcases compile_ruleset_ok_parts repo rid debug snap hc with
    ⟨rs, crs, _hrs, _hgw, hcrs, hrules, _hg, _hd, _ht⟩
  have hroutes : ∀ r ∈ snap.rules, r.action.route = some "FIXED" ∨
      r.action.route = some "WEIGHTED" ∨ r.action.route = some "DENY" := by
    intro r hmem
    rw [hrules] at hmem
    have hms : r ∈ crs := by
      simpa [sortRulesByPriority] using hmem
    rcases compileRules_mem repo.gateways debug _ crs hcrs r hms with ⟨r0, _hr0, hok⟩
    rcases compileRule_ok_parts r0 repo.gateways debug r hok with
      ⟨cond, m, _h1, _h2, hval, hcr⟩
    have : r.action = r0.action := by rw [hcr]
    rw [this]
    exact validate_action_route r0.action repo.gateways hval
  refine ⟨hroutes, ?_, ?_⟩
  · intro r hmem gw reason hres
    exact resolve_action_known_route r snap ctx rand gw reason (hroutes r hmem) hres
  · rcases select_gateway_reason env ctx snap allow rand g d hs with
      h1 | h1 | h1 | h1 | h1 <;> (rw [h1]; decide)

/-- Witness for C10 on the concrete compiled repository fixture. -/
theorem compiled_snapshot_no_unknown_route_witness :
    compile_ruleset repoW none false = .ok snapW10 ∧
    select_gateway ⟨0⟩ [("pix_key", .str "k1")] snapW10 true "u" =
      .ok (some gwOnB, ⟨some 2, some "FIXED", some "B", "matched"⟩) ∧
    (∀ r ∈ snapW10.rules, r.action.route = some "FIXED" ∨
      r.action.route = some "WEIGHTED" ∨ r.action.route = some "DENY") ∧
    (⟨some 2, some "FIXED", some "B", "matched"⟩ : Decision).reason ≠
      "unknown_route" := by
  have h := compiled_snapshot_no_unknown_route repoW none false snapW10 ⟨0⟩
    [("pix_key", .str "k1")] true "u" (some gwOnB)
    ⟨some 2, some "FIXED", some "B", "matched"⟩ rfl rfl
  exact ⟨rfl, rfl, h.1, h.2.2⟩

/-! ## C4: the compiler fails exactly on the enumerated conditions -/

/-- compileRule succeeds exactly when condition resolution, predicate
compilation and action validation all succeed. -/
theorem compileRule_ok_iff (r : RuleRec) (gws : GwMap) (debug : Bool) :
    (∃ cr, compileRule r gws debug = .ok cr) ↔
      ((∃ cond, resolveCondition r = .ok cond ∧
        ∃ m, compile_predicate cond debug = .ok m) ∧
       _validate_action r.action gws = .ok ()) := by
  constructor
  · rintro ⟨cr, h⟩
    rcases compileRule_ok_parts r gws debug cr h with ⟨cond, m, h1, h2, h3, _⟩
    exact ⟨⟨cond, h1, m, h2⟩, h3⟩
  · rintro ⟨⟨cond, h1, m, h2⟩, h3⟩
    exact ⟨⟨r.id, r.priority, r.enabled, r.name, m, r.action⟩,
      by simp [compileRule, compileRuleInner, h1, h2, h3]⟩

/-- The rule loop succeeds exactly when every rule compiles. -/
theorem compileRules_ok_iff (gws : GwMap) (debug : Bool) :
    ∀ rrs : List RuleRec,
      (∃ crs, compileRules gws debug rrs = .ok crs) ↔
        ∀ r ∈ rrs, ∃ cr, compileRule r gws debug = .ok cr := by
  intro rrs
  induction rrs with
  | nil =>
    constructor
    · intro _ r hr
      simp at hr
    · intro _
      exact ⟨[], rfl⟩
  | cons r rest ih =>
    constructor
    · rintro ⟨crs, h⟩ r0 hr0
      cases hcr : compileRule r gws debug with
      | error e => simp [compileRules, hcr] at h
      | ok cr =>
        simp only [compileRules, hcr] at h
        cases htl : compileRules gws debug rest with
        | error e => simp [htl] at h
        | ok tl =>
          rcases List.mem_cons.mp hr0 with hr0 | hr0
          · exact hr0 ▸ ⟨cr, hcr⟩
          · exact (ih.mp ⟨tl, htl⟩) r0 hr0
    · intro hall
      rcases hall r (List.mem_cons_self r rest) with ⟨cr, hcr⟩
      rcases ih.mpr (fun r0 hr0 => hall r0 (List.mem_cons_of_mem r hr0)) with
        ⟨tl, htl⟩
      exact ⟨cr :: tl, by simp [compileRules, hcr, htl]⟩

/-- A successful compilation also validated the default gateway. -/
theorem compile_ruleset_ok_default (repo : RepoData) (rid : Option Int)
    (debug : Bool) (snap : CompiledRuleset) (rs : RuleSetRec)
    (h : compile_ruleset repo rid debug = .ok snap)
    (hrs : targetRuleset repo rid = some rs) :
    ∀ dg, rs.default_gateway = some dg → (gwLookup repo.gateways dg).isSome := by
  intro dg hdg
  unfold compile_ruleset at h
  rw [hrs] at h
  simp only [] at h
  by_cases hgw : repo.gateways.isEmpty = true
  · simp [hgw] at h
  · rw [if_neg hgw] at h
    cases hcrs : compileRules repo.gateways debug (rulesForRuleset repo rs.id) with
    | error e => simp [hcrs] at h
    | ok crs =>
      simp only [hcrs, hdg] at h
      by_cases hlook : (gwLookup repo.gateways dg).isNone = true
      · simp [hlook] at h
      · cases hl : gwLookup repo.gateways dg with
        | none => exact absurd (by rw [hl]; rfl) hlook
        | some g => rfl

/-- C4: compile_ruleset succeeds exactly when the requested or active rule
set exists, the gateway map is nonempty, every rule resolves and compiles its
condition and validates its action, and the default gateway, when set, is
known; the returned snapshot is then fully built, with rules sorted by
priority ascending and the rule count preserved, and a failing input produces
no snapshot at all. -/
theorem compile_ruleset_ok_characterization (repo : RepoData)
    (rid : Option Int) (debug : Bool) :
    ((∃ s, compile_ruleset repo rid debug = .ok s) ↔
      ∃ rs, targetRuleset repo rid = some rs ∧
        repo.gateways ≠ [] ∧
        (∀ r ∈ rulesForRuleset repo rs.id,
          (∃ cond, resolveCondition r = .ok cond ∧
            ∃ m, compile_predicate cond debug = .ok m) ∧
          _validate_action r.action repo.gateways = .ok ()) ∧
        (∀ dg, rs.default_gateway = some dg →
          (gwLookup repo.gateways dg).isSome)) ∧
    (∀ s, compile_ruleset repo rid debug = .ok s →
      s.rules.Pairwise (fun a b => a.priority ≤ b.priority) ∧
      s.gateways = repo.gateways ∧
      s.total_rules = s.rules.length) := by
  constructor
  · constructor
    · rintro ⟨s, hs⟩
      rcases compile_ruleset_ok_parts repo rid debug s hs with
        ⟨rs, crs, h1, h2, h3, _, _, _, _⟩
      refine ⟨rs, h1, h2, ?_, ?_⟩
      · intro r hr
        rcases (compileRules_ok_iff repo.gateways debug _).mp ⟨crs, h3⟩ r hr with
          ⟨cr, hcr⟩
        exact (compileRule_ok_iff r repo.gateways debug).mp ⟨cr, hcr⟩
      · exact compile_ruleset_ok_default repo rid debug s rs hs h1
    · rintro ⟨rs, h1, h2, h3, h4⟩
      rcases (compileRules_ok_iff repo.gateways debug
          (rulesForRuleset repo rs.id)).mpr
          (fun r hr => (compileRule_ok_iff r repo.gateways debug).mpr (h3 r hr))
        with ⟨crs, hcrs⟩
      refine ⟨⟨rs.id, rs.version, rs.name, rs.sticky_salt,
        sortRulesByPriority crs, repo.gateways, rs.default_gateway, 0,
        crs.length⟩, ?_⟩
      unfold compile_ruleset
      rw [h1]
      simp only []
      rw [if_neg (by simpa [List.isEmpty_iff] using h2), hcrs]
      simp only []
      cases hdg : rs.default_gateway with
      | none => rfl
      | some dg =>
        dsimp only
        have hh := h4 dg hdg
        have hnn : ¬((gwLookup repo.gateways dg).isNone = true) := by
          cases hl : gwLookup repo.gateways dg with
          | none => rw [hl] at hh; simp at hh
          | some g => simp [hl]
        rw [if_neg hnn]
  · intro s hs
    rcases compile_ruleset_ok_parts repo rid debug s hs with
      ⟨rs, crs, _, _, _, hrules, hgws, _, htot⟩
    refine ⟨?_, hgws, ?_⟩
    · rw [hrules]
      exact List.sorted_insertionSort (fun a b => a.priority ≤ b.priority) crs
    · rw [htot, hrules]
      exact ((List.perm_insertionSort
        (fun a b => a.priority ≤ b.priority) crs).length_eq).symm

/-- Witness for C4 on the concrete repository fixture: compilation succeeds,
and the snapshot is sorted and complete. -/
theorem compile_ruleset_ok_characterization_witness :
    compile_ruleset repoW none false = .ok snapW10 ∧
    snapW10.rules.Pairwise (fun a b => a.priority ≤ b.priority) ∧
    snapW10.total_rules = snapW10.rules.length := by
  have h := (compile_ruleset_ok_characterization repoW none false).2 snapW10 rfl
  exact ⟨rfl, h.1, h.2.2⟩

/-! ## C3: compilation preserves the naive semantics -/

/-- Wrapping for debug is transparent to evaluation. -/
theorem evalE_wrapIf (debug : Bool) (m : Matcher) (env : EvalEnv) (ctx : Ctx) :
    (wrapIf debug m).evalE env ctx = m.evalE env ctx := by
  cases debug with
  | false => rfl
  | true => rfl

/-- Splitting a short circuit conjunction at an append point. -/
theorem evalAllList_append (xs ys : List Matcher) (env : EvalEnv) (ctx : Ctx) :
    Matcher.evalAllList (xs ++ ys) env ctx =
      (match Matcher.evalAllList xs env ctx with
       | .ok true => Matcher.evalAllList ys env ctx
       | r => r) := by
  induction xs with
  | nil => rfl
  | cons c cs ih =>
    rw [show Matcher.evalAllList ((c :: cs) ++ ys) env ctx =
        (match c.evalE env ctx with
         | Except.error e => Except.error e
         | Except.ok false => Except.ok false
         | Except.ok true => Matcher.evalAllList (cs ++ ys) env ctx) from rfl,
      show Matcher.evalAllList (c :: cs) env ctx =
        (match c.evalE env ctx with
         | Except.error e => Except.error e
         | Except.ok false => Except.ok false
         | Except.ok true => Matcher.evalAllList cs env ctx) from rfl]
    cases h : c.evalE env ctx with
    | error e => rfl
    | ok b =>
      cases b with
      | false => rfl
      | true => exact ih

/-- Splitting a short circuit disjunction at an append point. -/
theorem evalAnyList_append (xs ys : List Matcher) (env : EvalEnv) (ctx : Ctx) :
    Matcher.evalAnyList (xs ++ ys) env ctx =
      (match Matcher.evalAnyList xs env ctx with
       | .ok false => Matcher.evalAnyList ys env ctx
       | r => r) := by
  induction xs with
  | nil => rfl
  | cons c cs ih =>
    rw [show Matcher.evalAnyList ((c :: cs) ++ ys) env ctx =
        (match c.evalE env ctx with
         | Except.error e => Except.error e
         | Except.ok true => Except.ok true
         | Except.ok false => Matcher.evalAnyList (cs ++ ys) env ctx) from rfl,
      show Matcher.evalAnyList (c :: cs) env ctx =
        (match c.evalE env ctx with
         | Except.error e => Except.error e
         | Except.ok true => Except.ok true
         | Except.ok false => Matcher.evalAnyList cs env ctx) from rfl]
    cases h : c.evalE env ctx with
    | error e => rfl
    | ok b =>
      cases b with
      | true => rfl
      | false => exact ih

/-- A singleton conjunction is its member. -/
theorem evalAllList_singleton (c : Matcher) (env : EvalEnv) (ctx : Ctx) :
    Matcher.evalAllList [c] env ctx = c.evalE env ctx := by
  show (match c.evalE env ctx with
        | Except.error e => Except.error e
        | Except.ok false => Except.ok false
        | Except.ok true => Matcher.evalAllList [] env ctx) = c.evalE env ctx
  cases h : c.evalE env ctx with
  | error e => rfl
  | ok b => cases b <;> rfl

/-- A singleton disjunction is its member. -/
theorem evalAnyList_singleton (c : Matcher) (env : EvalEnv) (ctx : Ctx) :
    Matcher.evalAnyList [c] env ctx = c.evalE env ctx := by
  show (match c.evalE env ctx with
        | Except.error e => Except.error e
        | Except.ok true => Except.ok true
        | Except.ok false => Matcher.evalAnyList [] env ctx) = c.evalE env ctx
  cases h : c.evalE env ctx with
  | error e => rfl
  | ok b => cases b <;> rfl

/-- One step of the flattening for kind all. -/
theorem flattenAll_cons (c : Matcher) (ms : List Matcher) :
    flattenAll (c :: ms) =
      (match c with | .all cs => cs | _ => [c]) ++ flattenAll ms := by
  cases c <;> rfl

/-- One step of the flattening for kind any. -/
theorem flattenAny_cons (c : Matcher) (ms : List Matcher) :
    flattenAny (c :: ms) =
      (match c with | .anyOf cs => cs | _ => [c]) ++ flattenAny ms := by
  cases c <;> rfl

/-- The spliced group of a child evaluates like the child in a conjunction. -/
theorem evalAllList_group (c : Matcher) (env : EvalEnv) (ctx : Ctx) :
    Matcher.evalAllList (match c with | .all cs => cs | _ => [c]) env ctx =
      c.evalE env ctx := by
  cases c
  case all cs => rfl
  all_goals exact evalAllList_singleton _ env ctx

/-- The spliced group of a child evaluates like the child in a disjunction. -/
theorem evalAnyList_group (c : Matcher) (env : EvalEnv) (ctx : Ctx) :
    Matcher.evalAnyList (match c with | .anyOf cs => cs | _ => [c]) env ctx =
      c.evalE env ctx := by
  cases c
  case anyOf cs => rfl
  all_goals exact evalAnyList_singleton _ env ctx

/-- Flattening nested All nodes preserves the short circuit conjunction. -/
theorem evalAllList_flattenAll (env : EvalEnv) (ctx : Ctx) :
    ∀ ms, Matcher.evalAllList (flattenAll ms) env ctx =
      Matcher.evalAllList ms env ctx := by
  intro ms
  induction ms with
  | nil => rfl
  | cons c ms ih =>
    rw [flattenAll_cons, evalAllList_append, evalAllList_group]
    rw [show Matcher.evalAllList (c :: ms) env ctx =
        (match c.evalE env ctx with
         | Except.error e => Except.error e
         | Except.ok false => Except.ok false
         | Except.ok true => Matcher.evalAllList ms env ctx) from rfl]
    cases h : c.evalE env ctx with
    | error e => rfl
    | ok b =>
      cases b with
      | false => rfl
      | true => exact ih

/-- Flattening nested Any nodes preserves the short circuit disjunction. -/
theorem evalAnyList_flattenAny (env : EvalEnv) (ctx : Ctx) :
    ∀ ms, Matcher.evalAnyList (flattenAny ms) env ctx =
      Matcher.evalAnyList ms env ctx := by
  intro ms
  induction ms with
  | nil => rfl
  | cons c ms ih =>
    rw [flattenAny_cons, evalAnyList_append, evalAnyList_group]
    rw [show Matcher.evalAnyList (c :: ms) env ctx =
        (match c.evalE env ctx with
         | Except.error e => Except.error e
         | Except.ok true => Except.ok true
         | Except.ok false => Matcher.evalAnyList ms env ctx) from rfl]
    cases h : c.evalE env ctx with
    | error e => rfl
    | ok b =>
      cases b with
      | true => rfl
      | false => exact ih

/-- Catchall step of the CONST_FALSE collapse argument for All. -/
theorem keptForAll_none_aux (env : EvalEnv) (ctx : Ctx) (ch : Matcher)
    (ms : List Matcher) (b : Bool)
    (ih : ∀ b, keptForAll ms = none →
      Matcher.evalAllList ms env ctx = .ok b → b = false)
    (hk : (keptForAll ms).map (fun tl => ch :: tl) = none)
    (he : Matcher.evalAllList (ch :: ms) env ctx = .ok b) : b = false := by
  have hk2 : keptForAll ms = none := by
    rcases hmap : keptForAll ms with _ | tl
    · rfl
    · rw [hmap] at hk
      simp at hk
  rw [show Matcher.evalAllList (ch :: ms) env ctx =
      (match ch.evalE env ctx with
       | Except.error e => Except.error e
       | Except.ok false => Except.ok false
       | Except.ok true => Matcher.evalAllList ms env ctx) from rfl] at he
  cases hv : ch.evalE env ctx with
  | error e =>
    rw [hv] at he
    cases he
  | ok vb =>
    rw [hv] at he
    cases vb with
    | false =>
      injection he with h1
      exact h1.symm
    | true => exact ih b hk2 he

/-- If the constant fold of an All hits a CONST_FALSE, a defined conjunction
value can only be false. -/
theorem keptForAll_none_eval (env : EvalEnv) (ctx : Ctx) :
    ∀ ms b, keptForAll ms = none →
      Matcher.evalAllList ms env ctx = .ok b → b = false := by
  intro ms
  induction ms with
  | nil =>
    intro b hk _
    simp [keptForAll] at hk
  | cons c ms ih =>
    intro b hk he
    cases c
    case constFalse =>
      injection he with h1
      exact h1.symm
    case constTrue => exact ih b hk he
    all_goals exact keptForAll_none_aux env ctx _ ms b ih hk he

/-- Catchall step of the CONST_TRUE collapse argument for Any. -/
theorem keptForAny_none_aux (env : EvalEnv) (ctx : Ctx) (ch : Matcher)
    (ms : List Matcher) (b : Bool)
    (ih : ∀ b, keptForAny ms = none →
      Matcher.evalAnyList ms env ctx = .ok b → b = true)
    (hk : (keptForAny ms).map (fun tl => ch :: tl) = none)
    (he : Matcher.evalAnyList (ch :: ms) env ctx = .ok b) : b = true := by
  have hk2 : keptForAny ms = none := by
    rcases hmap : keptForAny ms with _ | tl
    · rfl
    · rw [hmap] at hk
      simp at hk
  rw [show Matcher.evalAnyList (ch :: ms) env ctx =
      (match ch.evalE env ctx with
       | Except.error e => Except.error e
       | Except.ok true => Except.ok true
       | Except.ok false => Matcher.evalAnyList ms env ctx) from rfl] at he
  cases hv : ch.evalE env ctx with
  | error e =>
    rw [hv] at he
    cases he
  | ok vb =>
    rw [hv] at he
    cases vb with
    | true =>
      injection he with h1
      exact h1.symm
    | false => exact ih b hk2 he

/-- If the constant fold of an Any hits a CONST_TRUE, a defined disjunction
value can only be true. -/
theorem keptForAny_none_eval (env : EvalEnv) (ctx : Ctx) :
    ∀ ms b, keptForAny ms = none →
      Matcher.evalAnyList ms env ctx = .ok b → b = true := by
  intro ms
  induction ms with
  | nil =>
    intro b hk _
    simp [keptForAny] at hk
  | cons c ms ih =>
    intro b hk he
    cases c
    case constTrue =>
      injection he with h1
      exact h1.symm
    case constFalse => exact ih b hk he
    all_goals exact keptForAny_none_aux env ctx _ ms b ih hk he

/-- Catchall step of the CONST_TRUE dropping argument for All. -/
theorem keptForAll_some_aux (env : EvalEnv) (ctx : Ctx) (ch : Matcher)
    (ms kept : List Matcher)
    (ih : ∀ kept, keptForAll ms = some kept →
      Matcher.evalAllList kept env ctx = Matcher.evalAllList ms env ctx)
    (hk : (keptForAll ms).map (fun tl => ch :: tl) = some kept) :
    Matcher.evalAllList kept env ctx =
      Matcher.evalAllList (ch :: ms) env ctx := by
  rcases hmap : keptForAll ms with _ | tl
  · rw [hmap] at hk
    cases hk
  · rw [hmap] at hk
    injection hk with h1
    rw [← h1]
    rw [show Matcher.evalAllList (ch :: tl) env ctx =
        (match ch.evalE env ctx with
         | Except.error e => Except.error e
         | Except.ok false => Except.ok false
         | Except.ok true => Matcher.evalAllList tl env ctx) from rfl]
    rw [show Matcher.evalAllList (ch :: ms) env ctx =
        (match ch.evalE env ctx with
         | Except.error e => Except.error e
         | Except.ok false => Except.ok false
         | Except.ok true => Matcher.evalAllList ms env ctx) from rfl]
    cases hv : ch.evalE env ctx with
    | error e => rfl
    | ok vb =>
      cases vb with
      | false => rfl
      | true => exact ih tl hmap

/-- Dropping CONST_TRUE children preserves the conjunction. -/
theorem keptForAll_some_eval (env : EvalEnv) (ctx : Ctx) :
    ∀ ms kept, keptForAll ms = some kept →
      Matcher.evalAllList kept env ctx = Matcher.evalAllList ms env ctx := by
  intro ms
  induction ms with
  | nil =>
    intro kept hk
    injection hk with h1
    rw [← h1]
  | cons c ms ih =>
    intro kept hk
    cases c
    case constFalse => cases hk
    case constTrue => exact ih kept hk
    all_goals exact keptForAll_some_aux env ctx _ ms kept ih hk

/-- Catchall step of the CONST_FALSE dropping argument for Any. -/
theorem keptForAny_some_aux (env : EvalEnv) (ctx : Ctx) (ch : Matcher)
    (ms kept : List Matcher)
    (ih : ∀ kept, keptForAny ms = some kept →
      Matcher.evalAnyList kept env ctx = Matcher.evalAnyList ms env ctx)
    (hk : (keptForAny ms).map (fun tl => ch :: tl) = some kept) :
    Matcher.evalAnyList kept env ctx =
      Matcher.evalAnyList (ch :: ms) env ctx := by
  rcases hmap : keptForAny ms with _ | tl
  · rw [hmap] at hk
    cases hk
  · rw [hmap] at hk
    injection hk with h1
    rw [← h1]
    rw [show Matcher.evalAnyList (ch :: tl) env ctx =
        (match ch.evalE env ctx with
         | Except.error e => Except.error e
         | Except.ok true => Except.ok true
         | Except.ok false => Matcher.evalAnyList tl env ctx) from rfl]
    rw [show Matcher.evalAnyList (ch :: ms) env ctx =
        (match ch.evalE env ctx with
         | Except.error e => Except.error e
         | Except.ok true => Except.ok true
         | Except.ok false => Matcher.evalAnyList ms env ctx) from rfl]
    cases hv : ch.evalE env ctx with
    | error e => rfl
    | ok vb =>
      cases vb with
      | true => rfl
      | false => exact ih tl hmap

/-- Dropping CONST_FALSE children preserves the disjunction. -/
theorem keptForAny_some_eval (env : EvalEnv) (ctx : Ctx) :
    ∀ ms kept, keptForAny ms = some kept →
      Matcher.evalAnyList kept env ctx = Matcher.evalAnyList ms env ctx := by
  intro ms
  induction ms with
  | nil =>
    intro kept hk
    injection hk with h1
    rw [← h1]
  | cons c ms ih =>
    intro kept hk
    cases c
    case constTrue => cases hk
    case constFalse => exact ih kept hk
    all_goals exact keptForAny_some_aux env ctx _ ms kept ih hk

/-- Constant folding of an All node preserves every defined conjunction
value. -/
theorem fold_all_eval (ms : List Matcher) (env : EvalEnv) (ctx : Ctx) (b : Bool)
    (he : Matcher.evalAllList ms env ctx = .ok b) :
    (_fold_constants_for_all ms).evalE env ctx = .ok b := by
  unfold _fold_constants_for_all
  cases hk : keptForAll ms with
  | none =>
    rw [keptForAll_none_eval env ctx ms b hk he]
    rfl
  | some kept =>
    have heq := keptForAll_some_eval env ctx ms kept hk
    cases kept with
    | nil =>
      have h2 : (Except.ok true : Except String Bool) = .ok b := heq.trans he
      injection h2 with h1
      rw [← h1]
      rfl
    | cons m rest =>
      cases rest with
      | nil =>
        rw [← evalAllList_singleton m env ctx, heq]
        exact he
      | cons m2 rest2 =>
        show Matcher.evalAllList (m :: m2 :: rest2) env ctx = .ok b
        rw [heq]
        exact he

/-- Constant folding of an Any node preserves every defined disjunction
value. -/
theorem fold_any_eval (ms : List Matcher) (env : EvalEnv) (ctx : Ctx) (b : Bool)
    (he : Matcher.evalAnyList ms env ctx = .ok b) :
    (_fold_constants_for_any ms).evalE env ctx = .ok b := by
  unfold _fold_constants_for_any
  cases hk : keptForAny ms with
  | none =>
    rw [keptForAny_none_eval env ctx ms b hk he]
    rfl
  | some kept =>
    have heq := keptForAny_some_eval env ctx ms kept hk
    cases kept with
    | nil =>
      have h2 : (Except.ok false : Except String Bool) = .ok b := heq.trans he
      injection h2 with h1
      rw [← h1]
      rfl
    | cons m rest =>
      cases rest with
      | nil =>
        rw [← evalAnyList_singleton m env ctx, heq]
        exact he
      | cons m2 rest2 =>
        show Matcher.evalAnyList (m :: m2 :: rest2) env ctx = .ok b
        rw [heq]
        exact he

/-- Compiled conjunction bodies preserve every defined naive value,
pointwise. -/
theorem compileList_all_rel (debug : Bool) (env : EvalEnv) (ctx : Ctx) :
    ∀ (cs : List PTree) (ms : List Matcher),
      compileList cs debug = .ok ms →
      (∀ c ∈ cs, ∀ m b, compile_predicate c debug = .ok m →
        naive_eval c env ctx = .ok b → m.evalE env ctx = .ok b) →
      ∀ b, naiveAllList cs env ctx = .ok b →
        Matcher.evalAllList ms env ctx = .ok b := by
  intro cs
  induction cs with
  | nil =>
    intro ms hc _ b hb
    injection hc with h1
    injection hb with h2
    rw [← h1, ← h2]
    rfl
  | cons c cs ih =>
    intro ms hc hmem b hb
    simp only [compileList] at hc
    cases hcc : compile_predicate c debug with
    | error e =>
      rw [hcc] at hc
      cases hc
    | ok m0 =>
      rw [hcc] at hc
      cases hcl : compileList cs debug with
      | error e =>
        rw [hcl] at hc
        cases hc
      | ok ms2 =>
        rw [hcl] at hc
        injection hc with h1
        rw [← h1]
        simp only [naiveAllList] at hb
        cases hnc : naive_eval c env ctx with
        | error e =>
          rw [hnc] at hb
          cases hb
        | ok cb =>
          rw [hnc] at hb
          have hm := hmem c (List.mem_cons_self c cs) m0 cb hcc hnc
          rw [show Matcher.evalAllList (m0 :: ms2) env ctx =
              (match m0.evalE env ctx with
               | Except.error e => Except.error e
               | Except.ok false => Except.ok false
               | Except.ok true => Matcher.evalAllList ms2 env ctx) from rfl, hm]
          cases cb with
          | false => exact hb
          | true =>
            exact ih ms2 hcl
              (fun c0 h0 => hmem c0 (List.mem_cons_of_mem c h0)) b hb

/-- Compiled disjunction bodies preserve every defined naive value,
pointwise. -/
theorem compileList_any_rel (debug : Bool) (env : EvalEnv) (ctx : Ctx) :
    ∀ (cs : List PTree) (ms : List Matcher),
      compileList cs debug = .ok ms →
      (∀ c ∈ cs, ∀ m b, compile_predicate c debug = .ok m →
        naive_eval c env ctx = .ok b → m.evalE env ctx = .ok b) →
      ∀ b, naiveAnyList cs env ctx = .ok b →
        Matcher.evalAnyList ms env ctx = .ok b := by
  intro cs
  induction cs with
  | nil =>
    intro ms hc _ b hb
    injection hc with h1
    injection hb with h2
    rw [← h1, ← h2]
    rfl
  | cons c cs ih =>
    intro ms hc hmem b hb
    simp only [compileList] at hc
    cases hcc : compile_predicate c debug with
    | error e =>
      rw [hcc] at hc
      cases hc
    | ok m0 =>
      rw [hcc] at hc
      cases hcl : compileList cs debug with
      | error e =>
        rw [hcl] at hc
        cases hc
      | ok ms2 =>
        rw [hcl] at hc
        injection hc with h1
        rw [← h1]
        simp only [naiveAnyList] at hb
        cases hnc : naive_eval c env ctx with
        | error e =>
          rw [hnc] at hb
          cases hb
        | ok cb =>
          rw [hnc] at hb
          have hm := hmem c (List.mem_cons_self c cs) m0 cb hcc hnc
          rw [show Matcher.evalAnyList (m0 :: ms2) env ctx =
              (match m0.evalE env ctx with
               | Except.error e => Except.error e
               | Except.ok true => Except.ok true
               | Except.ok false => Matcher.evalAnyList ms2 env ctx) from rfl, hm]
          cases cb with
          | true => exact hb
          | false =>
            exact ih ms2 hcl
              (fun c0 h0 => hmem c0 (List.mem_cons_of_mem c h0)) b hb

/-- Strong induction core of C3 over the size of the tree. -/
theorem compile_naive_aux (env : EvalEnv) (ctx : Ctx) :
    ∀ n (T : PTree), sizeOf T ≤ n → ∀ debug m b,
      compile_predicate T debug = .ok m →
      naive_eval T env ctx = .ok b → m.evalE env ctx = .ok b := by
  intro n
  induction n with
  | zero =>
    intro T hT
    exfalso
    cases T <;> simp at hT
  | succ n ihn =>
    intro T hT debug m b hc hn
    cases T with
    | leaf d =>
      simp only [compile_predicate] at hc
      split at hc
      · cases hc
      · split at hc
        · cases hc
        · cases hbm : build_matcher d with
          | error e =>
            rw [hbm] at hc
            cases hc
          | ok node =>
            rw [hbm] at hc
            injection hc with h1
            rw [← h1, evalE_wrapIf]
            simp only [naive_eval, hbm] at hn
            exact hn
    | all cs =>
      have hmem : ∀ c ∈ cs, ∀ m0 b0, compile_predicate c debug = .ok m0 →
          naive_eval c env ctx = .ok b0 → m0.evalE env ctx = .ok b0 := by
        intro c hcmem m0 b0 h1 h2
        have h3 := List.sizeOf_lt_of_mem hcmem
        have h4 : sizeOf (PTree.all cs) = 1 + sizeOf cs := by simp
        exact ihn c (by omega) debug m0 b0 h1 h2
      simp only [compile_predicate] at hc
      cases hcl : compileList cs debug with
      | error e =>
        rw [hcl] at hc
        cases hc
      | ok children =>
        rw [hcl] at hc
        injection hc with h1
        rw [← h1, evalE_wrapIf]
        simp only [naive_eval] at hn
        have h2 := compileList_all_rel debug env ctx cs children hcl hmem b hn
        rw [← evalAllList_flattenAll env ctx children] at h2
        exact fold_all_eval _ env ctx b h2
    | anyOf cs =>
      have hmem : ∀ c ∈ cs, ∀ m0 b0, compile_predicate c debug = .ok m0 →
          naive_eval c env ctx = .ok b0 → m0.evalE env ctx = .ok b0 := by
        intro c hcmem m0 b0 h1 h2
        have h3 := List.sizeOf_lt_of_mem hcmem
        have h4 : sizeOf (PTree.anyOf cs) = 1 + sizeOf cs := by simp
        exact ihn c (by omega) debug m0 b0 h1 h2
      simp only [compile_predicate] at hc
      cases hcl : compileList cs debug with
      | error e =>
        rw [hcl] at hc
        cases hc
      | ok children =>
        rw [hcl] at hc
        injection hc with h1
        rw [← h1]
        unfold mkAnyNode
        rw [evalE_wrapIf]
        simp only [naive_eval] at hn
        have h2 := compileList_any_rel debug env ctx cs children hcl hmem b hn
        rw [← evalAnyList_flattenAny env ctx children] at h2
        exact fold_any_eval _ env ctx b h2
    | noneOf cs =>
      simp only [compile_predicate] at hc
      by_cases hemp : cs.isEmpty = true
      · rw [if_pos hemp] at hc
        injection hc with h1
        rw [← h1, evalE_wrapIf]
        have hcs : cs = [] := by
          cases cs with
          | nil => rfl
          | cons a l => simp at hemp
        subst hcs
        simp only [naive_eval] at hn
        rw [show naiveAnyList [] env ctx = .ok false from rfl] at hn
        injection hn with h2
        rw [← h2]
        rfl
      · rw [if_neg hemp] at hc
        have hmem : ∀ c ∈ cs, ∀ m0 b0, compile_predicate c debug = .ok m0 →
            naive_eval c env ctx = .ok b0 → m0.evalE env ctx = .ok b0 := by
          intro c hcmem m0 b0 h1 h2
          have h3 := List.sizeOf_lt_of_mem hcmem
          have h4 : sizeOf (PTree.noneOf cs) = 1 + sizeOf cs := by simp
          exact ihn c (by omega) debug m0 b0 h1 h2
        cases hcl : compileList cs debug with
        | error e =>
          rw [hcl] at hc
          cases hc
        | ok children =>
          rw [hcl] at hc
          injection hc with h4
          simp only [naive_eval] at hn
          cases hna : naiveAnyList cs env ctx with
          | error e =>
            rw [hna] at hn
            cases hn
          | ok bb =>
            rw [hna] at hn
            injection hn with h2
            have hanyEval : (mkAnyNode children debug).evalE env ctx = .ok bb := by
              unfold mkAnyNode
              rw [evalE_wrapIf]
              have h3 := compileList_any_rel debug env ctx cs children hcl hmem bb hna
              rw [← evalAnyList_flattenAny env ctx children] at h3
              exact fold_any_eval _ env ctx bb h3
            cases hAN : mkAnyNode children debug
            · rw [hAN] at hanyEval h4
              injection hanyEval with h3
              rw [← h4, evalE_wrapIf, ← h2, ← h3]
              rfl
            · rw [hAN] at hanyEval h4
              injection hanyEval with h3
              rw [← h4, evalE_wrapIf, ← h2, ← h3]
              rfl
            all_goals
              rw [hAN] at hanyEval h4
            all_goals
              rw [← h4, evalE_wrapIf, ← h2]
            all_goals
              exact congrArg (fun r => match r with
                | Except.error e => Except.error e
                | Except.ok v => Except.ok (!v)) hanyEval

/-- C3: for every valid predicate tree and context, the matcher produced by
compile_predicate, with flattening of nested same kind composites and
constant folding, evaluates to the same boolean the naive recursive
evaluation of the tree yields. -/
theorem compile_predicate_preserves_naive_semantics (T : PTree) (debug : Bool)
    (env : EvalEnv) (ctx : Ctx) (m : Matcher) (b : Bool)
    (hc : compile_predicate T debug = .ok m)
    (hn : naive_eval T env ctx = .ok b) :
    m.evalE env ctx = .ok b :=
  compile_naive_aux env ctx (sizeOf T) T le_rfl debug m b hc hn

/-- Witness for C3: a tree with an empty none composite folding to
CONST_TRUE in front of a VALUE_IN leaf; the compiled matcher folds to the
bare leaf and agrees with the naive evaluation. -/
theorem compile_predicate_preserves_naive_semantics_witness :
    compile_predicate (.all [.noneOf [], .leaf c3leafFixture]) false =
      .ok (.valueIn "f" [.int 1] none) ∧
    naive_eval (.all [.noneOf [], .leaf c3leafFixture]) ⟨0⟩ [("f", .int 1)] =
      .ok true ∧
    (Matcher.valueIn "f" [.int 1] none).evalE ⟨0⟩ [("f", .int 1)] = .ok true :=
  ⟨rfl, rfl,
    compile_predicate_preserves_naive_semantics
      (.all [.noneOf [], .leaf c3leafFixture]) false ⟨0⟩ [("f", .int 1)]
      (.valueIn "f" [.int 1] none) true rfl rfl⟩

end GatewaySel
